import Mathlib

/-!
# Riam Tracker: instance registry and broadcast log

A shallow embedding of the request handlers of `src/api/index.js`.

The two module-level arrays `instances` and `broadcasts` become the fields of
`State`; every handler is a function from the state before the request to the
state after it, paired with the JSON reply.  `Date.now()` is an explicit
argument (epoch milliseconds, an integer that need not be monotone), and the
process environment is an explicit `Env`.

Request fields carry the types of the data model: identifiers, labels and
messages are strings, counters are natural numbers, and a field that is absent
from the body (`undefined` in the source) is `none`.  The source's truthiness
tests (`!x`, `x || d`) are modelled on those types: an absent value, the empty
string and the number zero are falsy.  Sums of counters are JavaScript numbers:
`jsAdd` rounds as IEEE 754 binary64 addition does, so it is exact up to `2 ^ 53`.
-/

namespace RiamTracker

/-! ## Data model -/

/-- One record of the `instances` array. -/
structure Instance where
  instanceId : String
  owner : String
  version : String
  userCount : Nat
  groupCount : Nat
  firstSeen : Int
  lastPing : Int
  status : String
  ip : String
  deriving DecidableEq, Repr

/-- One record of the `broadcasts` array. -/
structure Broadcast where
  id : String
  message : String
  created : Int
  status : String
  deliveredTo : List String
  deriving DecidableEq, Repr

/-- The in-memory storage of the service: `let instances = []; let broadcasts = [];`. -/
structure State where
  instances : List Instance
  broadcasts : List Broadcast
  deriving DecidableEq, Repr

/-- The state of a freshly started process. -/
def State.empty : State := { instances := [], broadcasts := [] }

/-- The part of `process.env` the handlers read. -/
structure Env where
  OWNER_KEY : Option String
  deriving DecidableEq, Repr

/-- An error reply: `res.status(status).json({ error })`. -/
structure HttpError where
  status : Nat
  error : String
  deriving DecidableEq, Repr

/-- Body of `POST /api/register`. -/
structure RegisterBody where
  instanceId : Option String
  owner : Option String
  version : Option String
  userCount : Option Nat
  groupCount : Option Nat
  deriving DecidableEq, Repr

/-- Success reply of `POST /api/register`. -/
structure RegisterReply where
  success : Bool
  message : String
  instanceId : String
  deriving DecidableEq, Repr

/-- A JavaScript number that is a non-negative integer, or `Infinity`: the values a sum of
counters can take. -/
inductive JsNum where
  | finite (n : Nat)
  | infinity
  deriving DecidableEq, Repr

/-- Reply of `GET /api/stats`.  `lastUpdated` is kept as the epoch milliseconds of the
second clock read; the source renders it with `toISOString()`. -/
structure Stats where
  totalInstances : Nat
  activeInstances : Nat
  totalUsers : JsNum
  totalGroups : JsNum
  lastUpdated : Int
  deriving DecidableEq, Repr

/-- Body of `POST /api/broadcast`. -/
structure BroadcastBody where
  message : Option String
  ownerKey : Option String
  deriving DecidableEq, Repr

/-- Success reply of `POST /api/broadcast`. -/
structure BroadcastReply where
  success : Bool
  broadcastId : String
  message : String
  deriving DecidableEq, Repr

/-! ## JavaScript primitives used by the handlers -/

/-- The JavaScript expression `v || d` for a string-valued field: absent and `""` are falsy. -/
def strOr (v : Option String) (d : String) : String :=
  match v with
  | some s => if s = "" then d else s
  | none => d

/-- The JavaScript expression `v || d` for a number-valued field: absent and `0` are falsy. -/
def numOr (v : Option Nat) (d : Nat) : Nat :=
  match v with
  | some n => if n = 0 then d else n
  | none => d

/-- The exponent of the leading binary digit of `n`, found by halving at most `fuel` times. -/
def floorLog2Fuel : Nat → Nat → Nat
  | 0, _ => 0
  | fuel + 1, n => if n < 2 then 0 else floorLog2Fuel fuel (n / 2) + 1

/-- The exponent `e` with `2 ^ e ≤ n < 2 ^ (e + 1)`, for `n ≥ 1`. -/
def floorLog2 (n : Nat) : Nat :=
  floorLog2Fuel n n

/-- The JavaScript number (IEEE 754 binary64) nearest to the natural number `n`, ties to the
even significand.  Integers up to `2 ^ 53` are exact; above, the value is a multiple of
`2 ^ (e - 52)` where `e` is the exponent of `n`; a rounded value of `2 ^ 1024` or more is
`Infinity`. -/
def toDouble (n : Nat) : JsNum :=
  if n ≤ 2 ^ 53 then .finite n
  else
    let ulp := 2 ^ (floorLog2 n - 52)
    let q := n / ulp
    let r := n % ulp
    let q' :=
      if 2 * r < ulp then q
      else if ulp < 2 * r then q + 1
      else if q % 2 = 0 then q else q + 1
    if q' * ulp < 2 ^ 1024 then .finite (q' * ulp) else .infinity

/-- The JavaScript expression `sum + x` on numbers, for an accumulated sum and a counter:
the exact sum rounded to the nearest number; `Infinity + x` is `Infinity`. -/
def jsAdd (sum : JsNum) (x : Nat) : JsNum :=
  match sum with
  | .finite a => toDouble (a + x)
  | .infinity => .infinity

/-- The characters `String.prototype.trim` removes: ECMAScript WhiteSpace and
LineTerminator code points. -/
def isJsWhiteSpace (c : Char) : Bool :=
  let n := c.toNat
  n == 0x09 || n == 0x0A || n == 0x0B || n == 0x0C || n == 0x0D || n == 0x20 ||
  n == 0xA0 || n == 0x1680 || (0x2000 ≤ n && n ≤ 0x200A) || n == 0x2028 ||
  n == 0x2029 || n == 0x202F || n == 0x205F || n == 0x3000 || n == 0xFEFF

/-- The method `String.prototype.trim`: drops white space at both ends. -/
def jsTrim (s : String) : String :=
  ⟨(s.data.dropWhile isJsWhiteSpace).rdropWhile isJsWhiteSpace⟩

/-- The call `xs.slice(-n)`: the last `n` elements, or all of them when there are fewer. -/
def sliceLast {α : Type} (n : Nat) (xs : List α) : List α :=
  xs.drop (xs.length - n)

/-- Object spread `{ ...old, ...data }` on instance records: every key of `data`
overrides the key of `old`. -/
def spread (old data : Instance) : Instance :=
  { old with
    instanceId := data.instanceId
    owner := data.owner
    version := data.version
    userCount := data.userCount
    groupCount := data.groupCount
    firstSeen := data.firstSeen
    lastPing := data.lastPing
    status := data.status
    ip := data.ip }

/-! ## Instance registry -/

/-- The prune window of `POST /api/register`: `24 * 60 * 60 * 1000`. -/
def DAY_MS : Int := 24 * 60 * 60 * 1000

/-- The liveness window of `GET /api/stats`: `5 * 60 * 1000`. -/
def ACTIVE_MS : Int := 5 * 60 * 1000

/-- The lookup `instances.findIndex(inst => inst.instanceId === instanceId)`, with `-1` as `none`. -/
def findInstanceIndex (instances : List Instance) (instanceId : String) : Option Nat :=
  instances.findIdx? (fun inst => inst.instanceId == instanceId)

/-- The record `instanceData` built by the register handler. -/
def instanceData (instances : List Instance) (existingIndex : Option Nat)
    (instanceId : String) (body : RegisterBody) (ip : String) (now : Int) : Instance :=
  { instanceId := instanceId
    owner := strOr body.owner "Unknown"
    version := strOr body.version "1.0.0"
    userCount := numOr body.userCount 0
    groupCount := numOr body.groupCount 0
    firstSeen :=
      match existingIndex with
      | some i =>
        match instances[i]? with
        | some existing => existing.firstSeen
        | none => now
      | none => now
    lastPing := now
    status := "online"
    ip := ip }

/-- The write of the register handler: assignment at `existingIndex` of the merged record,
or `push` when the id is new. -/
def upsert (instances : List Instance) (existingIndex : Option Nat) (data : Instance) :
    List Instance :=
  match existingIndex with
  | some i =>
    match instances[i]? with
    | some existing => instances.set i (spread existing data)
    | none => instances
  | none => instances ++ [data]

/-- The clean-up of the register handler:
`instances.filter(inst => now - inst.lastPing < 24 * 60 * 60 * 1000)`. -/
def prune (instances : List Instance) (now : Int) : List Instance :=
  instances.filter (fun inst => decide (now - inst.lastPing < DAY_MS))

/-- Handler of `POST /api/register`. -/
def register (s : State) (body : RegisterBody) (ip : String) (now : Int) :
    State × Except HttpError RegisterReply :=
  match body.instanceId with
  | none => (s, .error { status := 400, error := "instanceId is required" })
  | some instanceId =>
    if instanceId = "" then
      (s, .error { status := 400, error := "instanceId is required" })
    else
      let existingIndex := findInstanceIndex s.instances instanceId
      let data := instanceData s.instances existingIndex instanceId body ip now
      let written := upsert s.instances existingIndex data
      ({ s with instances := prune written now },
        .ok { success := true, message := "Instance registered", instanceId := instanceId })

/-- Handler of `GET /api/stats`; `now` is `Date.now()` and `stamp` the later `new Date()`.
The two `reduce` calls add JavaScript numbers, starting from `0`. -/
def getStats (s : State) (now stamp : Int) : Stats :=
  let activeInstances := s.instances.filter (fun inst => decide (now - inst.lastPing < ACTIVE_MS))
  { totalInstances := s.instances.length
    activeInstances := activeInstances.length
    totalUsers := s.instances.foldl (fun sum inst => jsAdd sum inst.userCount) (.finite 0)
    totalGroups := s.instances.foldl (fun sum inst => jsAdd sum inst.groupCount) (.finite 0)
    lastUpdated := stamp }

/-- Handler of `GET /api/instances`.  `Array.prototype.sort` is stable and sorts in place,
so the stored array is reordered as well; the comparator `b.lastPing - a.lastPing` puts
`a` first when `a.lastPing ≥ b.lastPing`. -/
def listInstances (s : State) : State × List Instance :=
  let sorted := s.instances.insertionSort (fun a b => a.lastPing ≥ b.lastPing)
  ({ s with instances := sorted }, sorted)

/-! ## Broadcast log -/

/-- The shared secret: `process.env.OWNER_KEY || 'queenriam123'`. -/
def validOwnerKey (env : Env) : String :=
  strOr env.OWNER_KEY "queenriam123"

/-- Handler of `POST /api/broadcast`; `tId` is the clock read inside `id` and `tCreated`
the one stored in `created`. -/
def create (env : Env) (s : State) (body : BroadcastBody) (tId tCreated : Int) :
    State × Except HttpError BroadcastReply :=
  if body.ownerKey ≠ some (validOwnerKey env) then
    (s, .error { status := 401, error := "Invalid owner key" })
  else
    match body.message with
    | none => (s, .error { status := 400, error := "Message is required" })
    | some message =>
      if message = "" ∨ (jsTrim message).length = 0 then
        (s, .error { status := 400, error := "Message is required" })
      else
        let broadcast : Broadcast :=
          { id := "bc_" ++ toString tId
            message := jsTrim message
            created := tCreated
            status := "active"
            deliveredTo := [] }
        ({ s with broadcasts := sliceLast 50 (s.broadcasts ++ [broadcast]) },
          .ok { success := true, broadcastId := broadcast.id,
                message := "Broadcast created successfully" })

/-- Handler of `GET /api/broadcasts/:instanceId`. -/
def listPending (s : State) (instanceId : String) : List Broadcast :=
  s.broadcasts.filter
    (fun bc => bc.status == "active" && !bc.deliveredTo.contains instanceId)

/-- Handler of `POST /api/broadcast-delivered`: the first broadcast with the given id gets
`instanceId` pushed onto `deliveredTo` unless it is there already; the reply is always
`{ success: true }`. -/
def acknowledgeDelivery (s : State) (instanceId broadcastId : String) : State × Bool :=
  match s.broadcasts.findIdx? (fun bc => bc.id == broadcastId) with
  | some i =>
    match s.broadcasts[i]? with
    | some broadcast =>
      if !broadcast.deliveredTo.contains instanceId then
        ({ s with broadcasts :=
            s.broadcasts.set i { broadcast with deliveredTo := broadcast.deliveredTo ++ [instanceId] } },
          true)
      else (s, true)
    | none => (s, true)
  | none => (s, true)

/-- Handler of `GET /api/broadcasts`: in-place stable sort by `created`, newest first. -/
def listAll (s : State) : State × List Broadcast :=
  let sorted := s.broadcasts.insertionSort (fun a b => a.created ≥ b.created)
  ({ s with broadcasts := sorted }, sorted)

/-! ## Sequences of calls and derived notions -/

/-- The first stored record with the given id: the one `findIndex` selects. -/
def lookup (instances : List Instance) (instanceId : String) : Option Instance :=
  instances.find? (fun inst => inst.instanceId == instanceId)

/-- One `POST /api/register` request together with the clock value it observes. -/
structure RegisterCall where
  body : RegisterBody
  ip : String
  now : Int
  deriving DecidableEq, Repr

/-- The state after a sequence of register requests, served one after the other. -/
def registerAll (s : State) (calls : List RegisterCall) : State :=
  calls.foldl (fun st c => (register st c.body c.ip c.now).1) s

/-- One `POST /api/broadcast` request together with the two clock values it observes. -/
structure CreateCall where
  body : BroadcastBody
  tId : Int
  tCreated : Int
  deriving DecidableEq, Repr

/-- The state after a sequence of broadcast-creation requests, served one after the other. -/
def createAll (env : Env) (s : State) (calls : List CreateCall) : State :=
  calls.foldl (fun st c => (create env st c.body c.tId c.tCreated).1) s

/-- The broadcast a successful creation request stores. -/
def broadcastOf (c : CreateCall) : Broadcast :=
  { id := "bc_" ++ toString c.tId
    message := jsTrim ((c.body.message).getD "")
    created := c.tCreated
    status := "active"
    deliveredTo := [] }

/-- A stored record with the given id and timestamps and no counters, for worked examples. -/
def sampleInstance (instanceId : String) (firstSeen lastPing : Int) : Instance :=
  { instanceId := instanceId, owner := "Unknown", version := "1.0.0", userCount := 0,
    groupCount := 0, firstSeen := firstSeen, lastPing := lastPing, status := "online",
    ip := "10.0.0.1" }

/-- A register body that supplies the id only, for worked examples. -/
def sampleBody (instanceId : String) : RegisterBody :=
  { instanceId := some instanceId, owner := none, version := none, userCount := none,
    groupCount := none }

/-- The creation request number `i` of a worked example: message `hello`, the fallback
secret, and both clock reads at `1000 + i`. -/
def sampleCreate (i : Nat) : CreateCall :=
  { body := { message := some "hello", ownerKey := some "queenriam123" },
    tId := 1000 + i, tCreated := 1000 + i }

/-- A message that is absent, empty or made of white space only. -/
def isBlank (message : Option String) : Prop :=
  match message with
  | none => True
  | some m => ∀ c ∈ m.data, isJsWhiteSpace c = true

instance (message : Option String) : Decidable (isBlank message) := by
  unfold isBlank
  cases message <;> infer_instance

/-- A creation request that passes both checks of the handler. -/
def CreateCall.accepted (env : Env) (c : CreateCall) : Prop :=
  c.body.ownerKey = some (validOwnerKey env) ∧ ¬ isBlank c.body.message

/-! ## Requests and reachable states -/

/-- One request to the service, with the clock values its handler reads. -/
inductive Op where
  | register (body : RegisterBody) (ip : String) (now : Int)
  | getStats (now stamp : Int)
  | listInstances
  | create (body : BroadcastBody) (tId tCreated : Int)
  | listPending (instanceId : String)
  | acknowledgeDelivery (instanceId broadcastId : String)
  | listAll
  deriving DecidableEq, Repr

/-- The state after one request.  `getStats` and `listPending` only read; `listInstances`
and `listAll` leave the stored array sorted. -/
def step (env : Env) (s : State) : Op → State
  | .register body ip now => (register s body ip now).1
  | .getStats _ _ => s
  | .listInstances => (listInstances s).1
  | .create body tId tCreated => (create env s body tId tCreated).1
  | .listPending _ => s
  | .acknowledgeDelivery instanceId broadcastId => (acknowledgeDelivery s instanceId broadcastId).1
  | .listAll => (listAll s).1

/-- The state after a sequence of requests, served one after the other. -/
def run (env : Env) (s : State) (ops : List Op) : State :=
  ops.foldl (step env) s

/-- The clock values a request reads, in the order it reads them. -/
def Op.clock : Op → List Int
  | .register _ _ now => [now]
  | .getStats now stamp => [now, stamp]
  | .create _ tId tCreated => [tId, tCreated]
  | _ => []

/-- Each value of the list is at most the next one. -/
def isNonDecreasing : List Int → Bool
  | a :: b :: rest => decide (a ≤ b) && isNonDecreasing (b :: rest)
  | _ => true

/-- The requests are issued at non-decreasing times: the clock never goes back. -/
def nonDecreasing (ops : List Op) : Prop :=
  isNonDecreasing (ops.flatMap Op.clock) = true

instance (ops : List Op) : Decidable (nonDecreasing ops) :=
  inferInstanceAs (Decidable (isNonDecreasing (ops.flatMap Op.clock) = true))

/-- The request that replays a creation call. -/
def CreateCall.toOp (c : CreateCall) : Op :=
  .create c.body c.tId c.tCreated

/-- Fifty creations at times 1000 to 1049, then `GET /api/broadcasts`, then one more creation
at time 1050. -/
def evictionScenario : List Op :=
  (List.range 50).map (fun i => (sampleCreate i).toOp) ++ [.listAll, (sampleCreate 50).toOp]

/-- Two accepted creation calls served within the same millisecond, with different messages. -/
def collisionCalls : List CreateCall :=
  [{ body := { message := some "first", ownerKey := some "queenriam123" },
     tId := 1000, tCreated := 1000 },
   { body := { message := some "second", ownerKey := some "queenriam123" },
     tId := 1000, tCreated := 1000 }]

/-- Two accepted creations that both read the clock value 1000 for the id (the second reads
1001 for `created`), then the acknowledgment of `bc_1000` by `bot-1`, then
`GET /api/broadcasts`. -/
def reorderScenario : List Op :=
  [.create { message := some "first", ownerKey := some "queenriam123" } 1000 1000,
   .create { message := some "second", ownerKey := some "queenriam123" } 1000 1001,
   .acknowledgeDelivery "bot-1" "bc_1000",
   .listAll]

/-- The number a list of decimal digit characters denotes; other characters count as zero. -/
def digitsVal (l : List Char) : Nat :=
  l.foldl (fun a c => 10 * a + (c.toNat - 48)) 0

/-- A creation request is accepted: it passes both checks of the handler. -/
def Op.isAcceptedCreate (env : Env) : Op → Prop
  | .create body _ _ => body.ownerKey = some (validOwnerKey env) ∧ ¬ isBlank body.message
  | _ => False

/-- The later record `b2` is the record `b1` with possibly more acknowledgments: same `id`,
`message`, `created` and `status`, and every entry of `deliveredTo` still there. -/
def Grown (b1 b2 : Broadcast) : Prop :=
  b2.id = b1.id ∧ b2.message = b1.message ∧ b2.created = b1.created ∧
    b2.status = b1.status ∧ ∀ x ∈ b1.deliveredTo, x ∈ b2.deliveredTo

end RiamTracker

namespace RiamTracker

/-! ## Auxiliary facts -/

theorem findIdx?_split {α : Type} {p : α → Bool} {l : List α} {i : Nat}
    (h : l.findIdx? p = some i) :
    ∃ l1 e l2, l = l1 ++ e :: l2 ∧ l1.length = i ∧ (∀ x ∈ l1, p x = false) ∧ p e = true := by
  induction l generalizing i with
  | nil => simp at h
  | cons x xs ih =>
    by_cases hx : p x = true
    · refine ⟨[], x, xs, rfl, ?_, by simp, hx⟩
      simp [List.findIdx?_cons, hx] at h
      simpa using h
    · have hx' : p x = false := by simpa using hx
      rw [List.findIdx?_cons, if_neg hx, List.findIdx?_succ] at h
      obtain ⟨j, hj, rfl⟩ := Option.map_eq_some'.mp h
      obtain ⟨l1, e, l2, rfl, hlen, hl1, he⟩ := ih hj
      refine ⟨x :: l1, e, l2, rfl, by simp [hlen], ?_, he⟩
      intro y hy
      rcases List.mem_cons.mp hy with rfl | hy
      · exact hx'
      · exact hl1 y hy

theorem spread_eq (old data : Instance) : spread old data = data := by
  cases old; cases data; rfl

theorem register_ok (s : State) (body : RegisterBody) (ip : String) (now : Int) (X : String)
    (hX : X ≠ "") (hb : body.instanceId = some X) :
    register s body ip now =
      ({ s with instances := prune (upsert s.instances (findInstanceIndex s.instances X)
            (instanceData s.instances (findInstanceIndex s.instances X) X body ip now)) now },
        .ok { success := true, message := "Instance registered", instanceId := X }) := by
  simp [register, hb, hX]

/-- The shape of the instance list after a successful register call: either the first record
with the id is replaced where it stands, or a record is appended; then the list is pruned. -/
theorem register_shape (s : State) (body : RegisterBody) (ip : String) (now : Int) (X : String)
    (hX : X ≠ "") (hb : body.instanceId = some X) :
    ∃ data : Instance, data.instanceId = X ∧ data.lastPing = now ∧
      data.owner = strOr body.owner "Unknown" ∧ data.version = strOr body.version "1.0.0" ∧
      data.userCount = numOr body.userCount 0 ∧ data.groupCount = numOr body.groupCount 0 ∧
      data.status = "online" ∧ data.ip = ip ∧
      ((∃ l1 e l2, s.instances = l1 ++ e :: l2 ∧ (∀ x ∈ l1, x.instanceId ≠ X) ∧
          e.instanceId = X ∧ data.firstSeen = e.firstSeen ∧
          (register s body ip now).1.instances = prune (l1 ++ data :: l2) now) ∨
       ((∀ x ∈ s.instances, x.instanceId ≠ X) ∧ data.firstSeen = now ∧
          (register s body ip now).1.instances = prune (s.instances ++ [data]) now)) := by
  refine ⟨instanceData s.instances (findInstanceIndex s.instances X) X body ip now,
    rfl, rfl, rfl, rfl, rfl, rfl, rfl, rfl, ?_⟩
  rw [register_ok s body ip now X hX hb]
  cases hfi : findInstanceIndex s.instances X with
  | none =>
    right
    have hnone := List.findIdx?_eq_none_iff.mp hfi
    refine ⟨?_, rfl, rfl⟩
    intro x hx
    simpa using hnone x hx
  | some i =>
    left
    obtain ⟨l1, e, l2, hl, hlen, hl1, he⟩ := findIdx?_split hfi
    have hget : s.instances[i]? = some e := by
      rw [hl, ← hlen, List.getElem?_append_right (Nat.le_refl _)]; simp
    refine ⟨l1, e, l2, hl, ?_, by simpa using he, by simp [instanceData, hget], ?_⟩
    · intro x hx
      simpa using hl1 x hx
    · simp only [upsert, hget, spread_eq]
      rw [hl, ← hlen]
      simp

theorem lookup_prune_insert (l1 l2 : List Instance) (data : Instance) (now : Int) (X : String)
    (hl1 : ∀ x ∈ l1, x.instanceId ≠ X) (hid : data.instanceId = X) (hlp : data.lastPing = now) :
    lookup (prune (l1 ++ data :: l2) now) X = some data := by
  have hkeep : (decide (now - data.lastPing < DAY_MS)) = true := by
    simp [hlp, DAY_MS]
  have hnone : List.find? (fun inst => inst.instanceId == X)
      (List.filter (fun inst => decide (now - inst.lastPing < DAY_MS)) l1) = none := by
    rw [List.find?_eq_none]
    intro x hx
    have := hl1 x (List.mem_of_mem_filter hx)
    simpa using this
  simp only [lookup, prune, List.filter_append, List.find?_append, hnone, Option.none_or]
  simp [List.filter_cons, hkeep, hid]

theorem lookup_eq_none_of_forall (l : List Instance) (X : String)
    (h : ∀ x ∈ l, x.instanceId ≠ X) : lookup l X = none := by
  rw [lookup, List.find?_eq_none]
  intro x hx
  simpa using h x hx

theorem lookup_split (l1 l2 : List Instance) (e : Instance) (X : String)
    (hl1 : ∀ x ∈ l1, x.instanceId ≠ X) (he : e.instanceId = X) :
    lookup (l1 ++ e :: l2) X = some e := by
  have hnone := lookup_eq_none_of_forall l1 X hl1
  rw [lookup] at hnone
  simp [lookup, List.find?_append, hnone, he]

/-- The value `firstSeen` takes on a register call at `now`: the stored one when the id is
already registered, otherwise `now`. -/
theorem lookup_register (s : State) (body : RegisterBody) (ip : String) (now : Int) (X : String)
    (hX : X ≠ "") (hb : body.instanceId = some X) :
    ∃ r, lookup (register s body ip now).1.instances X = some r ∧ r.instanceId = X ∧
      r.lastPing = now ∧
      r.firstSeen = (match lookup s.instances X with
        | some e => e.firstSeen
        | none => now) := by
  obtain ⟨data, hid, hlp, -, -, -, -, -, -, hcase⟩ := register_shape s body ip now X hX hb
  refine ⟨data, ?_, hid, hlp, ?_⟩
  · rcases hcase with ⟨l1, e, l2, -, hl1, -, -, hres⟩ | ⟨hall, -, hres⟩
    · rw [hres]; exact lookup_prune_insert l1 l2 data now X hl1 hid hlp
    · rw [hres]; exact lookup_prune_insert s.instances [] data now X hall hid hlp
  · rcases hcase with ⟨l1, e, l2, hl, hl1, he, hfs, -⟩ | ⟨hall, hfs, -⟩
    · rw [hl, lookup_split l1 l2 e X hl1 he]; exact hfs
    · rw [lookup_eq_none_of_forall _ X hall]; exact hfs

/-! ## Registry: repeated registration -/

/-- C1, as amended.  For every state and every sequence of register calls that all carry the
same non-empty `instanceId`, after the call number `k` the registry holds a record for that
id (the first one with the id) whose `lastPing` is the time of that call and whose
`firstSeen` is the `firstSeen` of the record the starting state already held for the id, or,
when it held none, the time of the first call of the sequence. -/
theorem register_repeated_firstSeen_lastPing (s : State) (X : String)
    (calls : List RegisterCall) (hX : X ≠ "")
    (hall : ∀ c ∈ calls, c.body.instanceId = some X)
    (k : Nat) (c0 ck : RegisterCall) (h0 : calls[0]? = some c0) (hk : calls[k]? = some ck) :
    ∃ r, lookup (registerAll s (calls.take (k + 1))).instances X = some r ∧
      r ∈ (registerAll s (calls.take (k + 1))).instances ∧ r.instanceId = X ∧
      r.lastPing = ck.now ∧
      r.firstSeen = (match lookup s.instances X with
        | some e => e.firstSeen
        | none => c0.now) := by
  induction k generalizing ck with
  | zero =>
    have hck : ck = c0 := by
      rw [h0] at hk; exact (Option.some.inj hk).symm
    subst hck
    have hb := hall ck (List.getElem?_mem h0)
    obtain ⟨r, hr, hid, hlp, hfs⟩ := lookup_register s ck.body ck.ip ck.now X hX hb
    have htake : calls.take (0 + 1) = [ck] := by
      rw [List.take_succ, h0]; simp
    rw [htake]
    refine ⟨r, ?_, ?_, hid, hlp, hfs⟩
    · simpa [registerAll] using hr
    · have := List.mem_of_find?_eq_some hr
      simpa [registerAll] using this
  | succ k ih =>
    have hlt : k + 1 < calls.length := by
      rcases Nat.lt_or_ge (k + 1) calls.length with h | h
      · exact h
      · rw [List.getElem?_eq_none h] at hk; cases hk
    have hk' : calls[k]? = some (calls.get ⟨k, by omega⟩) := by
      rw [List.getElem?_eq_getElem]; rfl
    obtain ⟨r', hr', -, -, -, hfs'⟩ := ih _ hk'
    have hb := hall ck (List.getElem?_mem hk)
    obtain ⟨r, hr, hid, hlp, hfs⟩ :=
      lookup_register (registerAll s (calls.take (k + 1))) ck.body ck.ip ck.now X hX hb
    have htake : calls.take (k + 1 + 1) = calls.take (k + 1) ++ [ck] := by
      rw [List.take_succ, hk]; simp
    have hstep : registerAll s (calls.take (k + 1 + 1)) =
        (register (registerAll s (calls.take (k + 1))) ck.body ck.ip ck.now).1 := by
      rw [htake]; simp [registerAll, List.foldl_append]
    rw [hstep]
    refine ⟨r, hr, List.mem_of_find?_eq_some hr, hid, hlp, ?_⟩
    rw [hfs, hr']
    exact hfs'

/-- An instance of `register_repeated_firstSeen_lastPing`: two calls for `bot-1` on the
empty registry, at times 1000 and 2000. -/
theorem register_repeated_firstSeen_lastPing_witness :
    ∃ r, lookup (registerAll State.empty
        (List.take (1 + 1)
          [{ body := ⟨some "bot-1", none, none, none, none⟩, ip := "10.0.0.1", now := 1000 },
           { body := ⟨some "bot-1", none, none, some 3, none⟩, ip := "10.0.0.1", now := 2000 }])
        ).instances "bot-1" = some r ∧
      r ∈ (registerAll State.empty
        (List.take (1 + 1)
          [{ body := ⟨some "bot-1", none, none, none, none⟩, ip := "10.0.0.1", now := 1000 },
           { body := ⟨some "bot-1", none, none, some 3, none⟩, ip := "10.0.0.1", now := 2000 }])
        ).instances ∧ r.instanceId = "bot-1" ∧ r.lastPing = 2000 ∧ r.firstSeen = 1000 :=
  register_repeated_firstSeen_lastPing State.empty "bot-1"
    [{ body := ⟨some "bot-1", none, none, none, none⟩, ip := "10.0.0.1", now := 1000 },
     { body := ⟨some "bot-1", none, none, some 3, none⟩, ip := "10.0.0.1", now := 2000 }]
    (by decide) (by decide) 1
    { body := ⟨some "bot-1", none, none, none, none⟩, ip := "10.0.0.1", now := 1000 }
    { body := ⟨some "bot-1", none, none, some 3, none⟩, ip := "10.0.0.1", now := 2000 }
    rfl rfl

/-- C1 as stated fails when the starting state already holds the id: the registry holds
`bot-1` with `firstSeen = 5`, one register call for `bot-1` is made at time 10, and afterwards
no record for `bot-1` has `firstSeen = 10`. -/
theorem register_firstSeen_not_first_call :
    ¬ ∃ r ∈ (registerAll
        { instances := [{ instanceId := "bot-1", owner := "Unknown", version := "1.0.0",
                          userCount := 0, groupCount := 0, firstSeen := 5, lastPing := 5,
                          status := "online", ip := "10.0.0.1" }],
          broadcasts := [] }
        [{ body := ⟨some "bot-1", none, none, none, none⟩, ip := "10.0.0.1", now := 10 }]
        ).instances,
      r.instanceId = "bot-1" ∧ r.firstSeen = 10 ∧ r.lastPing = 10 := by
  decide

/-! ## Registry: rejected registration -/

/-- C2.  A register call whose `instanceId` is absent or the empty string is answered with
status 400 and returns the state it was given: the instance list and the broadcast log are
untouched, and in particular nothing is pruned. -/
theorem register_missing_id (s : State) (body : RegisterBody) (ip : String) (now : Int)
    (h : body.instanceId = none ∨ body.instanceId = some "") :
    register s body ip now =
      (s, .error { status := 400, error := "instanceId is required" }) := by
  rcases h with h | h <;> simp [register, h]

/-- An instance of `register_missing_id`: the stored record is a year stale and is kept. -/
theorem register_missing_id_witness :
    register
      { instances := [{ instanceId := "bot-1", owner := "Unknown", version := "1.0.0",
                        userCount := 0, groupCount := 0, firstSeen := 5, lastPing := 5,
                        status := "online", ip := "10.0.0.1" }],
        broadcasts := [] }
      ⟨some "", some "me", none, some 4, none⟩ "10.0.0.2" 31536000000 =
      ({ instances := [{ instanceId := "bot-1", owner := "Unknown", version := "1.0.0",
                         userCount := 0, groupCount := 0, firstSeen := 5, lastPing := 5,
                         status := "online", ip := "10.0.0.1" }],
         broadcasts := [] },
       .error { status := 400, error := "instanceId is required" }) :=
  register_missing_id _ _ _ _ (Or.inr rfl)

/-! ## Registry: pruning -/

theorem mem_prune {l : List Instance} {now : Int} {r : Instance} :
    r ∈ prune l now ↔ r ∈ l ∧ now - r.lastPing < 86400000 := by
  simp [prune, DAY_MS]

/-- C3.  After a successful register call at time `now` every stored record has an age
`now - lastPing` below 24 hours, so none exceeds it; every record that was stored before the
call with an age above 24 hours (whatever its id, and however many there are) is gone from
the registry and from what `listInstances` returns next, and the number of records older
than 24 hours is zero. -/
theorem register_prunes_stale (s : State) (body : RegisterBody) (ip : String) (now : Int)
    (X : String) (hX : X ≠ "") (hb : body.instanceId = some X) :
    (∀ r ∈ (register s body ip now).1.instances, ¬ (now - r.lastPing > 86400000)) ∧
    (∀ r ∈ s.instances, now - r.lastPing > 86400000 →
      r ∉ (register s body ip now).1.instances ∧
      r ∉ (listInstances (register s body ip now).1).2 ∧
      r ∉ (listInstances (register s body ip now).1).1.instances) ∧
    ((register s body ip now).1.instances.countP
      (fun r => decide (now - r.lastPing > 86400000)) = 0) := by
  have hfresh : ∀ r ∈ (register s body ip now).1.instances, now - r.lastPing < 86400000 := by
    intro r hr
    rw [register_ok s body ip now X hX hb] at hr
    exact (mem_prune.mp hr).2
  refine ⟨?_, ?_, ?_⟩
  · intro r hr
    have := hfresh r hr
    omega
  · intro r _ hstale
    have hnot : r ∉ (register s body ip now).1.instances := by
      intro hr
      have := hfresh r hr
      omega
    refine ⟨hnot, ?_, ?_⟩ <;>
    · intro hr
      exact hnot ((List.mem_insertionSort _).mp hr)
  · rw [List.countP_eq_zero]
    intro r hr
    have := hfresh r hr
    simp only [gt_iff_lt, decide_eq_true_eq, not_lt]
    omega

/-- An instance of `register_prunes_stale`: two records last pinged at time 0, and a register
call for a third id one millisecond after the 24 hours. -/
theorem register_prunes_stale_witness :
    (∀ r ∈ (register
        { instances := [sampleInstance "bot-1" 0 0, sampleInstance "bot-2" 0 0],
          broadcasts := [] }
        (sampleBody "bot-3") "10.0.0.3" 86400001).1.instances,
      ¬ (86400001 - r.lastPing > 86400000)) ∧
    (∀ r ∈ [sampleInstance "bot-1" 0 0, sampleInstance "bot-2" 0 0],
      86400001 - r.lastPing > 86400000 →
      r ∉ (register
        { instances := [sampleInstance "bot-1" 0 0, sampleInstance "bot-2" 0 0],
          broadcasts := [] }
        (sampleBody "bot-3") "10.0.0.3" 86400001).1.instances ∧
      r ∉ (listInstances (register
        { instances := [sampleInstance "bot-1" 0 0, sampleInstance "bot-2" 0 0],
          broadcasts := [] }
        (sampleBody "bot-3") "10.0.0.3" 86400001).1).2 ∧
      r ∉ (listInstances (register
        { instances := [sampleInstance "bot-1" 0 0, sampleInstance "bot-2" 0 0],
          broadcasts := [] }
        (sampleBody "bot-3") "10.0.0.3" 86400001).1).1.instances) ∧
    ((register
        { instances := [sampleInstance "bot-1" 0 0, sampleInstance "bot-2" 0 0],
          broadcasts := [] }
        (sampleBody "bot-3") "10.0.0.3" 86400001).1.instances.countP
      (fun r => decide (86400001 - r.lastPing > 86400000)) = 0) :=
  register_prunes_stale
    { instances := [sampleInstance "bot-1" 0 0, sampleInstance "bot-2" 0 0], broadcasts := [] }
    (sampleBody "bot-3") "10.0.0.3" 86400001 "bot-3" (by decide) rfl

/-- A record of another id whose age is strictly below 24 hours survives a successful register
call unchanged. -/
theorem register_keeps_fresh (s : State) (body : RegisterBody) (ip : String) (now : Int)
    (X : String) (hX : X ≠ "") (hb : body.instanceId = some X)
    (r : Instance) (hr : r ∈ s.instances) (hid : r.instanceId ≠ X)
    (hage : now - r.lastPing < 86400000) :
    r ∈ (register s body ip now).1.instances := by
  obtain ⟨data, hdid, -, -, -, -, -, -, -, hcase⟩ := register_shape s body ip now X hX hb
  rcases hcase with ⟨l1, e, l2, hl, -, he, -, hres⟩ | ⟨-, -, hres⟩
  · rw [hres, mem_prune]
    refine ⟨?_, hage⟩
    rw [hl] at hr
    rcases List.mem_append.mp hr with h | h
    · exact List.mem_append_left _ h
    · rcases List.mem_cons.mp h with h | h
      · exact absurd (h ▸ he) hid
      · exact List.mem_append_right _ (List.mem_cons_of_mem _ h)
  · rw [hres, mem_prune]
    exact ⟨List.mem_append_left _ hr, hage⟩

/-- C4, the code at the boundary.  On the empty registry `bot-2` registers at time
1700000000000 and `bot-1` registers exactly 24 hours later, at 1700086400000.  The record
of `bot-2` then has an age of exactly 86400000 ms, which does not exceed 24 hours, and the
second call removes it all the same: only the record of `bot-1` is stored. -/
theorem register_prunes_at_exactly_24h :
    (registerAll State.empty
        [{ body := sampleBody "bot-2", ip := "10.0.0.1", now := 1700000000000 }]).instances =
      [sampleInstance "bot-2" 1700000000000 1700000000000] ∧
    (1700086400000 - (sampleInstance "bot-2" 1700000000000 1700000000000).lastPing
      ≤ 86400000) ∧
    (sampleInstance "bot-2" 1700000000000 1700000000000).instanceId ≠ "bot-1" ∧
    sampleInstance "bot-2" 1700000000000 1700000000000 ∉
      (registerAll State.empty
        [{ body := sampleBody "bot-2", ip := "10.0.0.1", now := 1700000000000 },
         { body := sampleBody "bot-1", ip := "10.0.0.1", now := 1700086400000 }]).instances ∧
    (registerAll State.empty
        [{ body := sampleBody "bot-2", ip := "10.0.0.1", now := 1700000000000 },
         { body := sampleBody "bot-1", ip := "10.0.0.1", now := 1700086400000 }]).instances =
      [sampleInstance "bot-1" 1700086400000 1700086400000] := by
  decide

/-! ## Registry: statistics -/

theorem toDouble_exact (n : Nat) (h : n ≤ 2 ^ 53) : toDouble n = .finite n := by
  unfold toDouble
  rw [if_pos h]

theorem foldl_jsAdd_exact {α : Type} (f : α → Nat) (l : List α) (a : Nat)
    (h : a + (l.map f).sum ≤ 2 ^ 53) :
    l.foldl (fun sum x => jsAdd sum (f x)) (.finite a) = .finite (a + (l.map f).sum) := by
  induction l generalizing a with
  | nil => simp
  | cons x xs ih =>
    simp only [List.map_cons, List.sum_cons] at h
    have hstep : jsAdd (.finite a) (f x) = .finite (a + f x) :=
      toDouble_exact (a + f x) (by omega)
    rw [List.foldl_cons, hstep, ih (a + f x) (by omega)]
    simp only [List.map_cons, List.sum_cons]
    congr 1
    omega

/-- C5, as amended.  `activeInstances` is the number of stored records whose age
`now - lastPing` is strictly below 300000 ms, `totalInstances` is the number of all stored
records, and `activeInstances ≤ totalInstances`; a record pinged 10 minutes before `now`,
wherever it is stored, adds one to `totalInstances` and nothing to `activeInstances`. -/
theorem getStats_counts (s : State) (now stamp : Int) :
    (getStats s now stamp).activeInstances =
      s.instances.countP (fun inst => decide (now - inst.lastPing < 300000)) ∧
    (getStats s now stamp).totalInstances = s.instances.length ∧
    (getStats s now stamp).activeInstances ≤ (getStats s now stamp).totalInstances ∧
    (∀ (l1 l2 : List Instance) (r : Instance),
      (getStats { s with instances := l1 ++ { r with lastPing := now - 600000 } :: l2 }
          now stamp).totalInstances =
        (getStats { s with instances := l1 ++ l2 } now stamp).totalInstances + 1 ∧
      (getStats { s with instances := l1 ++ { r with lastPing := now - 600000 } :: l2 }
          now stamp).activeInstances =
        (getStats { s with instances := l1 ++ l2 } now stamp).activeInstances) := by
  refine ⟨?_, rfl, ?_, ?_⟩
  · simp [getStats, ACTIVE_MS, List.countP_eq_length_filter]
  · simp only [getStats]
    exact List.length_filter_le _ _
  · intro l1 l2 r
    simp only [getStats]
    constructor
    · simp only [List.length_append, List.length_cons]; omega
    · simp [List.filter_append, List.filter_cons, ACTIVE_MS]

/-- C5 as stated fails at the boundary: a record pinged exactly 300000 ms before `now` has an
age of at most 300000 ms, and `activeInstances` does not count it. -/
theorem getStats_active_excludes_exactly_5min :
    (getStats { instances := [sampleInstance "bot-1" 0 0], broadcasts := [] }
        300000 300000).activeInstances ≠
      [sampleInstance "bot-1" 0 0].countP (fun inst => decide (300000 - inst.lastPing ≤ 300000)) := by
  decide

/-- C6, as amended.  Whenever the sum of `userCount` over all stored records, whatever their
age, is at most `2 ^ 53`, `totalUsers` is that sum, and likewise `totalGroups` for
`groupCount`; and on the empty registry, registering `bot-1` with `userCount` 5 and
`groupCount` 2 gives statistics with 5 users, 2 groups and 1 instance. -/
theorem getStats_totals (s : State) (now stamp : Int) :
    ((s.instances.map (fun inst => inst.userCount)).sum ≤ 2 ^ 53 →
      (getStats s now stamp).totalUsers =
        .finite (s.instances.map (fun inst => inst.userCount)).sum) ∧
    ((s.instances.map (fun inst => inst.groupCount)).sum ≤ 2 ^ 53 →
      (getStats s now stamp).totalGroups =
        .finite (s.instances.map (fun inst => inst.groupCount)).sum) ∧
    (∀ (owner version : Option String) (ip : String) (t : Int),
      (getStats (register State.empty
          { instanceId := some "bot-1", owner := owner, version := version,
            userCount := some 5, groupCount := some 2 } ip t).1 now stamp).totalUsers =
        .finite 5 ∧
      (getStats (register State.empty
          { instanceId := some "bot-1", owner := owner, version := version,
            userCount := some 5, groupCount := some 2 } ip t).1 now stamp).totalGroups =
        .finite 2 ∧
      (getStats (register State.empty
          { instanceId := some "bot-1", owner := owner, version := version,
            userCount := some 5, groupCount := some 2 } ip t).1 now stamp).totalInstances = 1) := by
  refine ⟨?_, ?_, ?_⟩
  · intro h
    have := foldl_jsAdd_exact (fun inst : Instance => inst.userCount) s.instances 0
      (by simpa using h)
    simpa [getStats] using this
  · intro h
    have := foldl_jsAdd_exact (fun inst : Instance => inst.groupCount) s.instances 0
      (by simpa using h)
    simpa [getStats] using this
  · intro owner version ip t
    have h : ∀ body : RegisterBody, body.instanceId = some "bot-1" →
        (register State.empty body ip t).1.instances =
          [instanceData [] none "bot-1" body ip t] := by
      intro body hbody
      rw [register_ok _ _ _ _ "bot-1" (by decide) hbody]
      simp [State.empty, findInstanceIndex, upsert, prune, instanceData, DAY_MS]
    have h5 := h ⟨some "bot-1", owner, version, some 5, some 2⟩ rfl
    have h5u : jsAdd (.finite 0) 5 = .finite 5 := toDouble_exact 5 (by norm_num)
    have h2g : jsAdd (.finite 0) 2 = .finite 2 := toDouble_exact 2 (by norm_num)
    simp [getStats, h5, instanceData, numOr, h5u, h2g]

/-- An instance of `getStats_totals`: two stored records with 5 and 7 users. -/
theorem getStats_totals_witness :
    (getStats
      { instances := [{ sampleInstance "bot-1" 1000 1000 with userCount := 5 },
                      { sampleInstance "bot-2" 1000 1000 with userCount := 7 }],
        broadcasts := [] } 2000 2000).totalUsers = .finite 12 :=
  (getStats_totals
    { instances := [{ sampleInstance "bot-1" 1000 1000 with userCount := 5 },
                    { sampleInstance "bot-2" 1000 1000 with userCount := 7 }],
      broadcasts := [] } 2000 2000).1 (by decide)

set_option exponentiation.threshold 1100

/-- C6 as stated fails above `2 ^ 53`.  On the empty registry `bot-1` registers with
9007199254740992 users and `bot-2` with 1 user; the sum of the stored counters is
9007199254740993, and `totalUsers` is 9007199254740992, as JavaScript number addition
rounds the odd sum to the even neighbour. -/
theorem getStats_totalUsers_rounds_above_2_pow_53 :
    ((registerAll State.empty
        [{ body := ⟨some "bot-1", none, none, some 9007199254740992, none⟩,
           ip := "10.0.0.1", now := 1000 },
         { body := ⟨some "bot-2", none, none, some 1, none⟩,
           ip := "10.0.0.2", now := 1000 }]).instances.map
      (fun inst => inst.userCount)).sum = 9007199254740993 ∧
    (getStats (registerAll State.empty
        [{ body := ⟨some "bot-1", none, none, some 9007199254740992, none⟩,
           ip := "10.0.0.1", now := 1000 },
         { body := ⟨some "bot-2", none, none, some 1, none⟩,
           ip := "10.0.0.2", now := 1000 }]) 2000 2000).totalUsers =
      .finite 9007199254740992 ∧
    (getStats (registerAll State.empty
        [{ body := ⟨some "bot-1", none, none, some 9007199254740992, none⟩,
           ip := "10.0.0.1", now := 1000 },
         { body := ⟨some "bot-2", none, none, some 1, none⟩,
           ip := "10.0.0.2", now := 1000 }]) 2000 2000).totalUsers ≠
      .finite ((registerAll State.empty
        [{ body := ⟨some "bot-1", none, none, some 9007199254740992, none⟩,
           ip := "10.0.0.1", now := 1000 },
         { body := ⟨some "bot-2", none, none, some 1, none⟩,
           ip := "10.0.0.2", now := 1000 }]).instances.map
        (fun inst => inst.userCount)).sum := by
  decide

/-! ## Broadcast log: creation -/

theorem jsTrim_length_eq_zero_iff (m : String) :
    (jsTrim m).length = 0 ↔ ∀ c ∈ m.data, isJsWhiteSpace c = true := by
  have hlen : (jsTrim m).length =
      ((m.data.dropWhile isJsWhiteSpace).rdropWhile isJsWhiteSpace).length := rfl
  rw [hlen, List.length_eq_zero, List.rdropWhile_eq_nil_iff]
  constructor
  · intro h
    have hnil : m.data.dropWhile isJsWhiteSpace = [] := by
      by_contra hne
      have hhead := List.head_dropWhile_not isJsWhiteSpace m.data hne
      have := h _ (List.head_mem hne)
      simp [this] at hhead
    exact List.dropWhile_eq_nil_iff.mp hnil
  · intro h c hc
    exact h c ((List.dropWhile_sublist _).subset hc)

theorem isBlank_some_iff (m : String) :
    isBlank (some m) ↔ (m = "" ∨ (jsTrim m).length = 0) := by
  rw [jsTrim_length_eq_zero_iff]
  constructor
  · intro h; exact Or.inr h
  · rintro (h | h)
    · subst h; intro c hc; cases hc
    · exact h

theorem create_accepted (env : Env) (s : State) (body : BroadcastBody) (tId tCreated : Int)
    (m : String) (hkey : body.ownerKey = some (validOwnerKey env))
    (hm : body.message = some m) (hnb : ¬ isBlank (some m)) :
    create env s body tId tCreated =
      ({ s with broadcasts := sliceLast 50 (s.broadcasts ++
          [{ id := "bc_" ++ toString tId, message := jsTrim m, created := tCreated,
             status := "active", deliveredTo := [] }]) },
        .ok { success := true, broadcastId := "bc_" ++ toString tId,
              message := "Broadcast created successfully" }) := by
  rw [isBlank_some_iff] at hnb
  simp only [create, hkey, hm, ne_eq, not_true_eq_false, if_false, if_neg hnb]

theorem sliceLast_append_singleton {α : Type} (n : Nat) (xs : List α) (x : α) :
    sliceLast (n + 1) (xs ++ [x]) = sliceLast n xs ++ [x] := by
  simp only [sliceLast, List.length_append, List.length_singleton]
  have h : xs.length + 1 - (n + 1) = xs.length - n := by omega
  rw [h, List.drop_append_of_le_length (by omega)]

/-- C7.  A creation request whose `ownerKey` differs from the configured secret (or is
absent) is answered with status 401 and returns the state it was given, so the log has the
same entries and `listAll` returns as many broadcasts as before. -/
theorem create_wrong_key (env : Env) (s : State) (body : BroadcastBody) (tId tCreated : Int)
    (h : body.ownerKey ≠ some (validOwnerKey env)) :
    create env s body tId tCreated =
      (s, .error { status := 401, error := "Invalid owner key" }) ∧
    (create env s body tId tCreated).1.broadcasts = s.broadcasts ∧
    (listAll (create env s body tId tCreated).1).2.length = (listAll s).2.length := by
  have h1 : create env s body tId tCreated =
      (s, .error { status := 401, error := "Invalid owner key" }) := by
    simp [create, h]
  rw [h1]
  exact ⟨rfl, rfl, rfl⟩

/-- An instance of `create_wrong_key`: the key differs from the fallback secret in case only. -/
theorem create_wrong_key_witness :
    create ⟨none⟩ State.empty ⟨some "hello", some "QueenRiam123"⟩ 7 7 =
      (State.empty, .error { status := 401, error := "Invalid owner key" }) ∧
    (create ⟨none⟩ State.empty ⟨some "hello", some "QueenRiam123"⟩ 7 7).1.broadcasts =
      State.empty.broadcasts ∧
    (listAll (create ⟨none⟩ State.empty ⟨some "hello", some "QueenRiam123"⟩ 7 7).1).2.length =
      (listAll State.empty).2.length :=
  create_wrong_key ⟨none⟩ State.empty ⟨some "hello", some "QueenRiam123"⟩ 7 7 (by decide)

/-- C8.  With a valid `ownerKey`, a creation request whose message is absent, empty or made of
white space only is answered with status 400 and returns the state it was given; and the
request is answered with that error exactly when the message is of that kind: every other
message is accepted. -/
theorem create_blank_message (env : Env) (s : State) (body : BroadcastBody)
    (tId tCreated : Int) (hkey : body.ownerKey = some (validOwnerKey env)) :
    (isBlank body.message →
      create env s body tId tCreated =
        (s, .error { status := 400, error := "Message is required" })) ∧
    ((create env s body tId tCreated).2 =
        .error { status := 400, error := "Message is required" } ↔ isBlank body.message) ∧
    (¬ isBlank body.message → ∃ reply, (create env s body tId tCreated).2 = .ok reply) := by
  cases hm : body.message with
  | none =>
    have h1 : create env s body tId tCreated =
        (s, .error { status := 400, error := "Message is required" }) := by
      simp [create, hkey, hm]
    refine ⟨fun _ => h1, ?_, ?_⟩
    · rw [h1]; simp [isBlank]
    · intro h; exact absurd trivial h
  | some m =>
    by_cases hb : isBlank (some m)
    · have hb' := (isBlank_some_iff m).mp hb
      have h1 : create env s body tId tCreated =
          (s, .error { status := 400, error := "Message is required" }) := by
        simp only [create, hkey, hm, ne_eq, not_true_eq_false, if_false, if_pos hb']
      refine ⟨fun _ => h1, ?_, fun h => absurd hb h⟩
      rw [h1]; simp [hb]
    · have h1 := create_accepted env s body tId tCreated m hkey hm hb
      refine ⟨fun h => absurd h hb, ?_, fun _ => ⟨_, by rw [h1]⟩⟩
      rw [h1]; simp [hb]

/-- An instance of `create_blank_message`: a message of a space, a tab, a line feed and a
no-break space is rejected and nothing is stored. -/
theorem create_blank_message_witness :
    create ⟨none⟩ State.empty ⟨some " \t\n\u00A0", some "queenriam123"⟩ 7 7 =
      (State.empty, .error { status := 400, error := "Message is required" }) :=
  (create_blank_message ⟨none⟩ State.empty ⟨some " \t\n\u00A0", some "queenriam123"⟩ 7 7
    (by decide)).1 (by decide)

theorem mem_listPending {s : State} {i : String} {b : Broadcast} :
    b ∈ listPending s i ↔ b ∈ s.broadcasts ∧ b.status = "active" ∧ i ∉ b.deliveredTo := by
  simp [listPending, and_assoc]

/-- C9.  A creation request with a valid key and a message `m` that is not blank, served with
clock reads `tId` (for the id) and `tCreated` (for `created`), is answered with success and
the id `"bc_" ++ tId`; the log becomes the last 50 entries of the old log followed by the
broadcast with that id, the trimmed message, `created = tCreated`, status `"active"` and an
empty `deliveredTo`; that broadcast is the last stored entry and is returned by
`listPending` for every instance id; the instance list is untouched.  The message
`" hello "` is stored as `"hello"`. -/
theorem create_stores_trimmed_active (env : Env) (s : State) (body : BroadcastBody)
    (tId tCreated : Int) (m : String) (hkey : body.ownerKey = some (validOwnerKey env))
    (hm : body.message = some m) (hnb : ¬ isBlank (some m)) :
    (create env s body tId tCreated).2 =
      .ok { success := true, broadcastId := "bc_" ++ toString tId,
            message := "Broadcast created successfully" } ∧
    (create env s body tId tCreated).1.broadcasts =
      sliceLast 49 s.broadcasts ++
        [{ id := "bc_" ++ toString tId, message := jsTrim m, created := tCreated,
           status := "active", deliveredTo := [] }] ∧
    (create env s body tId tCreated).1.broadcasts.getLast? =
      some { id := "bc_" ++ toString tId, message := jsTrim m, created := tCreated,
             status := "active", deliveredTo := [] } ∧
    (∀ i : String,
      ({ id := "bc_" ++ toString tId, message := jsTrim m, created := tCreated,
         status := "active", deliveredTo := [] } : Broadcast) ∈
        listPending (create env s body tId tCreated).1 i) ∧
    (create env s body tId tCreated).1.instances = s.instances ∧
    jsTrim " hello " = "hello" := by
  have h1 := create_accepted env s body tId tCreated m hkey hm hnb
  have h2 : (create env s body tId tCreated).1.broadcasts =
      sliceLast 49 s.broadcasts ++
        [{ id := "bc_" ++ toString tId, message := jsTrim m, created := tCreated,
           status := "active", deliveredTo := [] }] := by
    rw [h1]; exact sliceLast_append_singleton 49 _ _
  refine ⟨by rw [h1], h2, by rw [h2]; simp, ?_, by rw [h1], by decide⟩
  intro i
  rw [mem_listPending, h2]
  simp

/-- An instance of `create_stores_trimmed_active`: the message `" hello "` with the fallback
secret on the empty log. -/
theorem create_stores_trimmed_active_witness :
    (create ⟨none⟩ State.empty ⟨some " hello ", some "queenriam123"⟩ 1700000000000
        1700000000001).1.broadcasts =
      sliceLast 49 State.empty.broadcasts ++
        [{ id := "bc_" ++ toString (1700000000000 : Int), message := jsTrim " hello ",
           created := 1700000000001, status := "active", deliveredTo := [] }] :=
  (create_stores_trimmed_active ⟨none⟩ State.empty ⟨some " hello ", some "queenriam123"⟩
    1700000000000 1700000000001 " hello " (by decide) rfl (by decide)).2.1

/-! ## Broadcast log: capacity -/

theorem sliceLast_sliceLast_append {α : Type} (n : Nat) (xs ys : List α) :
    sliceLast n (sliceLast n xs ++ ys) = sliceLast n (xs ++ ys) := by
  simp only [sliceLast, List.length_append, List.length_drop]
  have hle : xs.length - n ≤ xs.length := Nat.sub_le _ _
  rw [← List.drop_append_of_le_length hle, List.drop_drop]
  congr 1
  omega

theorem create_of_accepted (env : Env) (s : State) (c : CreateCall) (h : c.accepted env) :
    (create env s c.body c.tId c.tCreated).1 =
      { s with broadcasts := sliceLast 50 (s.broadcasts ++ [broadcastOf c]) } := by
  obtain ⟨hkey, hnb⟩ := h
  cases hm : c.body.message with
  | none => rw [hm] at hnb; exact absurd trivial hnb
  | some m =>
    rw [hm] at hnb
    rw [create_accepted env s c.body c.tId c.tCreated m hkey hm hnb]
    simp [broadcastOf, hm]

theorem length_sliceLast_le {α : Type} (n : Nat) (xs : List α) :
    (sliceLast n xs).length ≤ n := by
  simp only [sliceLast, List.length_drop]; omega

theorem createAll_broadcasts (env : Env) (s : State) (calls : List CreateCall)
    (hlen : s.broadcasts.length ≤ 50) (h : ∀ c ∈ calls, c.accepted env) :
    (createAll env s calls).broadcasts =
      sliceLast 50 (s.broadcasts ++ calls.map broadcastOf) := by
  induction calls generalizing s with
  | nil =>
    have h0 : s.broadcasts.length - 50 = 0 := by omega
    simp [createAll, sliceLast, h0]
  | cons c cs ih =>
    have hc := h c (List.mem_cons_self _ _)
    have hcs : ∀ c' ∈ cs, c'.accepted env := fun c' hc' => h c' (List.mem_cons_of_mem _ hc')
    have hstep : createAll env s (c :: cs) =
        createAll env (create env s c.body c.tId c.tCreated).1 cs := rfl
    have hlen' : (create env s c.body c.tId c.tCreated).1.broadcasts.length ≤ 50 := by
      rw [create_of_accepted env s c hc]
      exact length_sliceLast_le 50 _
    rw [hstep, ih _ hlen' hcs, create_of_accepted env s c hc]
    simp only [List.map_cons]
    rw [sliceLast_sliceLast_append]
    simp

/-- C10.  Starting from the empty log, after any sequence of `n` accepted creation requests
the log is the list of the created broadcasts, in creation order, cut to its last 50
entries, and so has `min n 50` entries; with 51 requests the log has exactly 50 entries and
is the list of created broadcasts without its first element. -/
theorem createAll_from_empty (env : Env) (s : State) (calls : List CreateCall)
    (hs : s.broadcasts = []) (h : ∀ c ∈ calls, c.accepted env) :
    (createAll env s calls).broadcasts =
      (calls.map broadcastOf).drop (calls.length - 50) ∧
    (createAll env s calls).broadcasts.length = min calls.length 50 ∧
    (calls.length = 51 →
      (createAll env s calls).broadcasts.length = 50 ∧
      (createAll env s calls).broadcasts = (calls.map broadcastOf).tail) := by
  have h1 : (createAll env s calls).broadcasts =
      (calls.map broadcastOf).drop (calls.length - 50) := by
    rw [createAll_broadcasts env s calls (by simp [hs]) h, hs]
    simp [sliceLast]
  refine ⟨h1, ?_, ?_⟩
  · rw [h1, List.length_drop, List.length_map]; omega
  · intro h51
    rw [h1, h51]
    refine ⟨?_, ?_⟩
    · rw [List.length_drop, List.length_map, h51]
    · simp

/-- An instance of `createAll_from_empty`: 51 requests on the empty log leave 50 entries, the
created broadcasts without the first. -/
theorem createAll_from_empty_witness :
    (createAll ⟨none⟩ State.empty ((List.range 51).map sampleCreate)).broadcasts.length = 50 ∧
    (createAll ⟨none⟩ State.empty ((List.range 51).map sampleCreate)).broadcasts =
      (((List.range 51).map sampleCreate).map broadcastOf).tail :=
  (createAll_from_empty ⟨none⟩ State.empty ((List.range 51).map sampleCreate) rfl
    (by
      intro c hc
      obtain ⟨i, -, rfl⟩ := List.mem_map.mp hc
      have hnb : ¬ isBlank (some "hello") := by decide
      exact ⟨rfl, hnb⟩)).2.2 (by simp)

/-! ## Listings -/

theorem insertionSort_ge_sorted {α : Type} (key : α → Int) (l : List α) :
    (l.insertionSort (fun a b => key a ≥ key b)).Sorted (fun a b => key a ≥ key b) := by
  haveI : IsTotal α (fun a b => key a ≥ key b) := ⟨fun a b => le_total (key b) (key a)⟩
  haveI : IsTrans α (fun a b => key a ≥ key b) :=
    ⟨fun a b c hab hbc => le_trans hbc hab⟩
  exact List.sorted_insertionSort _ l

/-- C15.  `listInstances` returns a permutation of the stored instances in which `lastPing`
never increases from an entry to a later one; the stored array is left in that same order. -/
theorem listInstances_perm_sorted (s : State) :
    (listInstances s).2.Perm s.instances ∧
    (listInstances s).2.Pairwise (fun a b => a.lastPing ≥ b.lastPing) ∧
    (listInstances s).1.instances = (listInstances s).2 ∧
    (listInstances s).1.broadcasts = s.broadcasts := by
  refine ⟨List.perm_insertionSort _ _, ?_, rfl, rfl⟩
  exact insertionSort_ge_sorted (fun a : Instance => a.lastPing) s.instances

/-- C16.  `listAll` returns a permutation of the stored broadcasts in which `created` never
increases from an entry to a later one; the stored array is left in that same order. -/
theorem listAll_perm_sorted (s : State) :
    (listAll s).2.Perm s.broadcasts ∧
    (listAll s).2.Pairwise (fun a b => a.created ≥ b.created) ∧
    (listAll s).1.broadcasts = (listAll s).2 ∧
    (listAll s).1.instances = s.instances := by
  refine ⟨List.perm_insertionSort _ _, ?_, rfl, rfl⟩
  exact insertionSort_ge_sorted (fun a : Broadcast => a.created) s.broadcasts

/-! ## Shapes of the writes, and invariants of reachable states -/

theorem run_invariant (env : Env) (P : State → Prop) (h0 : P State.empty)
    (hstep : ∀ s op, P s → P (step env s op)) (ops : List Op) :
    P (run env State.empty ops) := by
  have key : ∀ (l : List Op) (s : State), P s → P (run env s l) := by
    intro l
    induction l with
    | nil => intro s hs; exact hs
    | cons op rest ih => intro s hs; exact ih _ (hstep s op hs)
  exact key ops _ h0

theorem run_append (env : Env) (s : State) (l1 l2 : List Op) :
    run env s (l1 ++ l2) = run env (run env s l1) l2 := by
  simp [run, List.foldl_append]

theorem register_cases (s : State) (body : RegisterBody) (ip : String) (now : Int) :
    (register s body ip now).1 = s ∨ ∃ X, X ≠ "" ∧ body.instanceId = some X := by
  cases h : body.instanceId with
  | none => left; simp [register, h]
  | some X =>
    by_cases hX : X = ""
    · left; simp [register, h, hX]
    · right; exact ⟨X, hX, rfl⟩

theorem register_broadcasts (s : State) (body : RegisterBody) (ip : String) (now : Int) :
    (register s body ip now).1.broadcasts = s.broadcasts := by
  rcases register_cases s body ip now with h | ⟨X, hX, hb⟩
  · rw [h]
  · rw [register_ok s body ip now X hX hb]

theorem create_cases (env : Env) (s : State) (body : BroadcastBody) (tId tCreated : Int) :
    (create env s body tId tCreated).1 = s ∨
    ((body.ownerKey = some (validOwnerKey env) ∧ ¬ isBlank body.message) ∧
      ∃ m, body.message = some m ∧
        (create env s body tId tCreated).1 =
          { s with broadcasts := sliceLast 50 (s.broadcasts ++
              [{ id := "bc_" ++ toString tId, message := jsTrim m, created := tCreated,
                 status := "active", deliveredTo := [] }]) }) := by
  by_cases hkey : body.ownerKey = some (validOwnerKey env)
  · cases hm : body.message with
    | none => left; simp [create, hkey, hm]
    | some m =>
      by_cases hb : isBlank (some m)
      · left
        have hb' := (isBlank_some_iff m).mp hb
        simp only [create, hkey, hm, ne_eq, not_true_eq_false, if_false, if_pos hb']
      · right
        refine ⟨⟨hkey, hb⟩, m, rfl, ?_⟩
        rw [create_accepted env s body tId tCreated m hkey hm hb]
  · left; simp [create, hkey]

theorem create_instances (env : Env) (s : State) (body : BroadcastBody) (tId tCreated : Int) :
    (create env s body tId tCreated).1.instances = s.instances := by
  rcases create_cases env s body tId tCreated with h | ⟨-, m, -, h⟩ <;> rw [h]

/-- The three outcomes of an acknowledgment: no broadcast has the id; the first one with the
id already lists the instance; or the first one with the id gets the instance appended. -/
theorem acknowledge_shape (s : State) (i bid : String) :
    ((∀ b ∈ s.broadcasts, b.id ≠ bid) ∧ (acknowledgeDelivery s i bid).1 = s) ∨
    (∃ l1 e l2, s.broadcasts = l1 ++ e :: l2 ∧ (∀ b ∈ l1, b.id ≠ bid) ∧ e.id = bid ∧
      i ∈ e.deliveredTo ∧ (acknowledgeDelivery s i bid).1 = s) ∨
    (∃ l1 e l2, s.broadcasts = l1 ++ e :: l2 ∧ (∀ b ∈ l1, b.id ≠ bid) ∧ e.id = bid ∧
      i ∉ e.deliveredTo ∧
      (acknowledgeDelivery s i bid).1 =
        { s with broadcasts :=
            l1 ++ { e with deliveredTo := e.deliveredTo ++ [i] } :: l2 }) := by
  cases hfi : s.broadcasts.findIdx? (fun bc => bc.id == bid) with
  | none =>
    left
    have hnone := List.findIdx?_eq_none_iff.mp hfi
    refine ⟨?_, by simp [acknowledgeDelivery, hfi]⟩
    intro b hb
    simpa using hnone b hb
  | some k =>
    right
    obtain ⟨l1, e, l2, hl, hlen, hl1, he⟩ := findIdx?_split hfi
    have hget : s.broadcasts[k]? = some e := by
      rw [hl, ← hlen, List.getElem?_append_right (Nat.le_refl _)]; simp
    have hl1' : ∀ b ∈ l1, b.id ≠ bid := by
      intro b hb
      simpa using hl1 b hb
    have he' : e.id = bid := by simpa using he
    by_cases hin : i ∈ e.deliveredTo
    · left
      refine ⟨l1, e, l2, hl, hl1', he', hin, ?_⟩
      simp [acknowledgeDelivery, hfi, hget, hin]
    · right
      refine ⟨l1, e, l2, hl, hl1', he', hin, ?_⟩
      simp only [acknowledgeDelivery, hfi, hget]
      rw [hl, ← hlen]
      simp [hin]

theorem acknowledge_instances (s : State) (i bid : String) :
    (acknowledgeDelivery s i bid).1.instances = s.instances := by
  rcases acknowledge_shape s i bid with ⟨-, h⟩ | ⟨_, _, _, -, -, -, -, h⟩ |
    ⟨_, _, _, -, -, -, -, h⟩ <;> rw [h]

theorem acknowledge_reply (s : State) (i bid : String) :
    (acknowledgeDelivery s i bid).2 = true := by
  unfold acknowledgeDelivery
  split
  · split
    · split <;> rfl
    · rfl
  · rfl

/-! ## Broadcast log: capacity over all requests -/

theorem step_broadcasts_length_le (env : Env) (s : State) (op : Op)
    (h : s.broadcasts.length ≤ 50) : (step env s op).broadcasts.length ≤ 50 := by
  cases op with
  | register body ip now => simpa [step, register_broadcasts] using h
  | getStats now stamp => exact h
  | listInstances => exact h
  | create body tId tCreated =>
    rcases create_cases env s body tId tCreated with hc | ⟨-, m, -, hc⟩
    · simpa [step, hc] using h
    · simp only [step, hc]
      exact length_sliceLast_le 50 _
  | listPending i => exact h
  | acknowledgeDelivery i bid =>
    rcases acknowledge_shape s i bid with ⟨-, hc⟩ | ⟨_, _, _, -, -, -, -, hc⟩ |
      ⟨l1, e, l2, hl, -, -, -, hc⟩
    · simpa [step, hc] using h
    · simpa [step, hc] using h
    · simp only [step, hc]
      rw [hl] at h
      simpa using h
  | listAll =>
    simp only [step, listAll, List.length_insertionSort]
    exact h

/-- The log never holds more than 50 broadcasts, whatever the requests. -/
theorem run_broadcasts_length_le (env : Env) (ops : List Op) :
    (run env State.empty ops).broadcasts.length ≤ 50 :=
  run_invariant env (fun s => s.broadcasts.length ≤ 50) (by simp [State.empty])
    (fun s op h => step_broadcasts_length_le env s op h) ops

set_option maxRecDepth 100000

/-- C11, the code after a listing.  Fifty broadcasts are created at times 1000 to 1049,
`GET /api/broadcasts` is served, and a broadcast is created at time 1050; the times never
decrease and every creation is accepted.  The listing has left the stored array newest first,
so the creation evicts the entry stored first, the one created at 1049: the log then holds
the broadcasts created at 1048 down to 1000 followed by the one created at 1050.  The
oldest-created broadcast is still stored and the second newest is gone. -/
theorem create_after_listAll_evicts_newest :
    nonDecreasing evictionScenario ∧
    (∀ op ∈ evictionScenario, op = Op.listAll ∨ op.isAcceptedCreate ⟨none⟩) ∧
    (run ⟨none⟩ State.empty evictionScenario).broadcasts.map (fun b => b.created) =
      (List.range 49).reverse.map (fun i => (1000 + i : Int)) ++ [1050] ∧
    broadcastOf (sampleCreate 49) ∉ (run ⟨none⟩ State.empty evictionScenario).broadcasts ∧
    broadcastOf (sampleCreate 0) ∈ (run ⟨none⟩ State.empty evictionScenario).broadcasts ∧
    broadcastOf (sampleCreate 50) ∈ (run ⟨none⟩ State.empty evictionScenario).broadcasts ∧
    (run ⟨none⟩ State.empty evictionScenario).broadcasts.length = 50 := by
  refine ⟨by decide, ?_, by decide, by decide, by decide, by decide, by decide⟩
  intro op hop
  simp only [evictionScenario, List.mem_append, List.mem_map, List.mem_range, List.mem_cons,
    List.mem_singleton, List.not_mem_nil, or_false] at hop
  have hnb : ¬ isBlank (some "hello") := by decide
  rcases hop with ⟨i, -, rfl⟩ | rfl | rfl
  · right; exact ⟨rfl, hnb⟩
  · left; rfl
  · right; exact ⟨rfl, hnb⟩

/-! ## Registry: one record per id -/

theorem nodup_ids_prune {l : List Instance} (now : Int)
    (h : (l.map (fun r => r.instanceId)).Nodup) :
    ((prune l now).map (fun r => r.instanceId)).Nodup :=
  h.sublist ((List.filter_sublist l).map _)

theorem step_instanceIds_nodup (env : Env) (s : State) (op : Op)
    (h : (s.instances.map (fun r => r.instanceId)).Nodup) :
    ((step env s op).instances.map (fun r => r.instanceId)).Nodup := by
  cases op with
  | register body ip now =>
    rcases register_cases s body ip now with hc | ⟨X, hX, hb⟩
    · simpa [step, hc] using h
    · obtain ⟨data, hid, -, -, -, -, -, -, -, hcase⟩ := register_shape s body ip now X hX hb
      rcases hcase with ⟨l1, e, l2, hl, -, he, -, hres⟩ | ⟨hall, -, hres⟩
      · simp only [step, hres]
        apply nodup_ids_prune
        rw [hl] at h
        simpa [hid, he] using h
      · simp only [step, hres]
        apply nodup_ids_prune
        rw [List.map_append, List.nodup_append]
        refine ⟨h, by simp, ?_⟩
        intro a ha hb'
        obtain ⟨r, hr, rfl⟩ := List.mem_map.mp ha
        simp only [List.map_cons, List.map_nil, List.mem_singleton] at hb'
        exact hall r hr (hb'.trans hid)
  | getStats now stamp => exact h
  | listInstances =>
    simp only [step, listInstances]
    exact ((List.perm_insertionSort _ s.instances).map _).nodup_iff.mpr h
  | create body tId tCreated => simpa [step, create_instances] using h
  | listPending i => exact h
  | acknowledgeDelivery i bid => simpa [step, acknowledge_instances] using h
  | listAll => exact h

/-- C17.  In every state reached from the empty state by any sequence of requests no two
stored instance records have the same `instanceId`; and a successful register call for an id
that such a state already holds writes the new record at the place of the old one: the list
written is the old list with that one record replaced, then pruned, and afterwards exactly
one record has the id. -/
theorem run_instanceIds_nodup (env : Env) (ops : List Op) :
    ((run env State.empty ops).instances.map (fun r => r.instanceId)).Nodup ∧
    (∀ (body : RegisterBody) (ip : String) (now : Int) (X : String), X ≠ "" →
      body.instanceId = some X →
      (∃ e ∈ (run env State.empty ops).instances, e.instanceId = X) →
      (∃ l1 e l2 data, (run env State.empty ops).instances = l1 ++ e :: l2 ∧
        e.instanceId = X ∧ data.instanceId = X ∧
        (register (run env State.empty ops) body ip now).1.instances =
          prune (l1 ++ data :: l2) now) ∧
      ((register (run env State.empty ops) body ip now).1.instances.countP
        (fun r => r.instanceId == X) = 1)) := by
  have hnd := run_invariant env (fun s => (s.instances.map (fun r => r.instanceId)).Nodup)
    (by simp [State.empty]) (fun s op h => step_instanceIds_nodup env s op h) ops
  refine ⟨hnd, ?_⟩
  intro body ip now X hX hb hpres
  have hnd' := step_instanceIds_nodup env (run env State.empty ops) (.register body ip now) hnd
  obtain ⟨r, hr, hid, -, -⟩ := lookup_register (run env State.empty ops) body ip now X hX hb
  have hmem := List.mem_of_find?_eq_some hr
  obtain ⟨data, hdid, -, -, -, -, -, -, -, hcase⟩ :=
    register_shape (run env State.empty ops) body ip now X hX hb
  refine ⟨?_, ?_⟩
  · rcases hcase with ⟨l1, e, l2, hl, -, he, -, hres⟩ | ⟨hall, -, -⟩
    · exact ⟨l1, e, l2, data, hl, he, hdid, hres⟩
    · obtain ⟨e, he, heid⟩ := hpres
      exact absurd heid (hall e he)
  · have hcount : ((register (run env State.empty ops) body ip now).1.instances.map
        (fun r => r.instanceId)).count X = 1 :=
      List.count_eq_one_of_mem hnd' (List.mem_map.mpr ⟨r, hmem, hid⟩)
    rw [List.count, List.countP_map] at hcount
    simpa [Function.comp] using hcount

/-- An instance of `run_instanceIds_nodup`: after `bot-1` has registered, a second register
call for `bot-1` leaves exactly one record with that id. -/
theorem run_instanceIds_nodup_witness :
    (register (run ⟨none⟩ State.empty [.register (sampleBody "bot-1") "10.0.0.1" 1000])
        (sampleBody "bot-1") "10.0.0.1" 2000).1.instances.countP
      (fun r => r.instanceId == "bot-1") = 1 :=
  ((run_instanceIds_nodup ⟨none⟩ [.register (sampleBody "bot-1") "10.0.0.1" 1000]).2
    (sampleBody "bot-1") "10.0.0.1" 2000 "bot-1" (by decide) rfl
    ⟨sampleInstance "bot-1" 1000 1000, by decide, rfl⟩).2

/-! ## Registry: what a register call writes -/

/-- C19, as amended.  After a successful register call for `X` the first record with id `X`
has `lastPing = now`, status `"online"`, the caller's address, and for each of `owner`,
`version`, `userCount` and `groupCount` the supplied value when one is supplied (a non-empty
string for `owner` and `version`) and otherwise the default `"Unknown"`, `"1.0.0"`, `0`, `0`,
whatever was stored before; `firstSeen` is the stored one when the id was already present
and `now` when it was not. -/
theorem register_overwrites_fields (s : State) (body : RegisterBody) (ip : String) (now : Int)
    (X : String) (hX : X ≠ "") (hb : body.instanceId = some X) :
    ∃ r, lookup (register s body ip now).1.instances X = some r ∧
      r ∈ (register s body ip now).1.instances ∧
      r.instanceId = X ∧ r.lastPing = now ∧ r.status = "online" ∧ r.ip = ip ∧
      (∀ o, body.owner = some o → o ≠ "" → r.owner = o) ∧
      (body.owner = none ∨ body.owner = some "" → r.owner = "Unknown") ∧
      (∀ v, body.version = some v → v ≠ "" → r.version = v) ∧
      (body.version = none ∨ body.version = some "" → r.version = "1.0.0") ∧
      (∀ n, body.userCount = some n → r.userCount = n) ∧
      (body.userCount = none → r.userCount = 0) ∧
      (∀ n, body.groupCount = some n → r.groupCount = n) ∧
      (body.groupCount = none → r.groupCount = 0) ∧
      (∀ e, lookup s.instances X = some e → r.firstSeen = e.firstSeen) ∧
      (lookup s.instances X = none → r.firstSeen = now) := by
  obtain ⟨data, hid, hlp, hown, hver, huc, hgc, hst, hip, hcase⟩ :=
    register_shape s body ip now X hX hb
  have hlook : lookup (register s body ip now).1.instances X = some data := by
    rcases hcase with ⟨l1, e, l2, -, hl1, -, -, hres⟩ | ⟨hall, -, hres⟩
    · rw [hres]; exact lookup_prune_insert l1 l2 data now X hl1 hid hlp
    · rw [hres]; exact lookup_prune_insert s.instances [] data now X hall hid hlp
  refine ⟨data, hlook, List.mem_of_find?_eq_some hlook, hid, hlp, hst, hip,
    ?_, ?_, ?_, ?_, ?_, ?_, ?_, ?_, ?_, ?_⟩
  · intro o ho hne; rw [hown, ho]; simp [strOr, hne]
  · rintro (ho | ho) <;> rw [hown, ho] <;> simp [strOr]
  · intro v hv hne; rw [hver, hv]; simp [strOr, hne]
  · rintro (hv | hv) <;> rw [hver, hv] <;> simp [strOr]
  · intro n hn; rw [huc, hn]; simp only [numOr]; split <;> simp_all
  · intro hn; rw [huc, hn]; rfl
  · intro n hn; rw [hgc, hn]; simp only [numOr]; split <;> simp_all
  · intro hn; rw [hgc, hn]; rfl
  · intro e he
    rcases hcase with ⟨l1, e', l2, hl, hl1, he', hfs, -⟩ | ⟨hall, -, -⟩
    · rw [hl, lookup_split l1 l2 e' X hl1 he'] at he
      cases he; exact hfs
    · rw [lookup_eq_none_of_forall _ X hall] at he; cases he
  · intro hnone
    rcases hcase with ⟨l1, e', l2, hl, hl1, he', -, -⟩ | ⟨-, hfs, -⟩
    · rw [hl, lookup_split l1 l2 e' X hl1 he'] at hnone; cases hnone
    · exact hfs

/-- An instance of `register_overwrites_fields`: `bot-1` is stored with 5 users, and a register
call for `bot-1` that supplies the id only is served at time 2000. -/
theorem register_overwrites_fields_witness :
    ∃ r, lookup (register
          { instances := [{ sampleInstance "bot-1" 1000 1000 with userCount := 5 }],
            broadcasts := [] }
          (sampleBody "bot-1") "10.0.0.2" 2000).1.instances "bot-1" = some r ∧
      r.userCount = 0 ∧ r.firstSeen = 1000 ∧ r.lastPing = 2000 := by
  obtain ⟨r, hr, -, -, hlp, -, -, -, -, -, -, -, huc, -, -, hfs, -⟩ :=
    register_overwrites_fields
      { instances := [{ sampleInstance "bot-1" 1000 1000 with userCount := 5 }],
        broadcasts := [] }
      (sampleBody "bot-1") "10.0.0.2" 2000 "bot-1" (by decide) rfl
  exact ⟨r, hr, huc rfl, hfs _ rfl, hlp⟩

/-- C19 as stated fails for the fields a call leaves out: `bot-1` registers at time 1000 with
owner `alice`, version `2.0.0`, 5 users and 2 groups, then registers at time 2000 with the id
only; the stored record then has the defaults, and no record keeps the 5 users. -/
theorem register_resets_unsupplied_fields :
    (registerAll State.empty
        [{ body := ⟨some "bot-1", some "alice", some "2.0.0", some 5, some 2⟩,
           ip := "10.0.0.1", now := 1000 },
         { body := sampleBody "bot-1", ip := "10.0.0.1", now := 2000 }]).instances =
      [sampleInstance "bot-1" 1000 2000] ∧
    ¬ ∃ r ∈ (registerAll State.empty
        [{ body := ⟨some "bot-1", some "alice", some "2.0.0", some 5, some 2⟩,
           ip := "10.0.0.1", now := 1000 },
         { body := sampleBody "bot-1", ip := "10.0.0.1", now := 2000 }]).instances,
      r.owner = "alice" ∨ r.version = "2.0.0" ∨ r.userCount = 5 ∨ r.groupCount = 2 := by
  decide

/-! ## Broadcast log: acknowledgment -/

theorem find?_first_match {α : Type} (p : α → Bool) (l1 l2 : List α) (e : α)
    (hl1 : ∀ x ∈ l1, p x = false) (he : p e = true) :
    (l1 ++ e :: l2).find? p = some e := by
  have hnone : l1.find? p = none := by
    rw [List.find?_eq_none]
    intro x hx
    simp [hl1 x hx]
  simp [List.find?_append, hnone, he]

theorem find?_id_first (l1 l2 : List Broadcast) (e : Broadcast) (bid : String)
    (hl1 : ∀ b ∈ l1, b.id ≠ bid) (he : e.id = bid) :
    (l1 ++ e :: l2).find? (fun bc => bc.id == bid) = some e :=
  find?_first_match _ l1 l2 e (fun x hx => by simpa using hl1 x hx) (by simpa using he)

/-- C13, as amended.  An acknowledgment always replies `success: true` and never touches the
instance list.  When no stored broadcast has the id, or the first stored broadcast with the
id (the one `find` selects) already lists the instance, the state is returned as it was.
Otherwise the log is the old log with that first stored broadcast replaced by itself with
the instance appended to `deliveredTo`: every other broadcast and every other field is as
before. -/
theorem acknowledgeDelivery_never_fails (s : State) (i bid : String) :
    (acknowledgeDelivery s i bid).2 = true ∧
    (acknowledgeDelivery s i bid).1.instances = s.instances ∧
    ((∀ b ∈ s.broadcasts, b.id ≠ bid) → (acknowledgeDelivery s i bid).1 = s) ∧
    (∀ e, s.broadcasts.find? (fun bc => bc.id == bid) = some e → i ∈ e.deliveredTo →
      (acknowledgeDelivery s i bid).1 = s) ∧
    ((acknowledgeDelivery s i bid).1 = s ∨
      ∃ l1 e l2, s.broadcasts = l1 ++ e :: l2 ∧ (∀ b ∈ l1, b.id ≠ bid) ∧ e.id = bid ∧
        s.broadcasts.find? (fun bc => bc.id == bid) = some e ∧ i ∉ e.deliveredTo ∧
        (acknowledgeDelivery s i bid).1.broadcasts =
          l1 ++ { id := e.id, message := e.message, created := e.created, status := e.status,
                  deliveredTo := e.deliveredTo ++ [i] } :: l2) := by
  refine ⟨acknowledge_reply s i bid, acknowledge_instances s i bid, ?_, ?_, ?_⟩
  · intro hnone
    rcases acknowledge_shape s i bid with ⟨-, h⟩ | ⟨_, _, _, -, -, -, -, h⟩ |
      ⟨l1, e, l2, hl, -, he, -, -⟩
    · exact h
    · exact h
    · exact absurd he (hnone e (by rw [hl]; simp))
  · intro e hfind hin
    rcases acknowledge_shape s i bid with ⟨-, h⟩ | ⟨_, _, _, -, -, -, -, h⟩ |
      ⟨l1, e', l2, hl, hl1, he', hnin, -⟩
    · exact h
    · exact h
    · rw [hl, find?_id_first l1 l2 e' bid hl1 he'] at hfind
      cases hfind
      exact absurd hin hnin
  · rcases acknowledge_shape s i bid with ⟨-, h⟩ | ⟨_, _, _, -, -, -, -, h⟩ |
      ⟨l1, e, l2, hl, hl1, he, hnin, h⟩
    · exact Or.inl h
    · exact Or.inl h
    · right
      refine ⟨l1, e, l2, hl, hl1, he, ?_, hnin, by rw [h]⟩
      rw [hl]
      exact find?_id_first l1 l2 e bid hl1 he

/-- C13 as stated fails when a later stored broadcast with the id lists the instance and the
first stored one does not.  Two broadcasts are created with the id `bc_1000`, `bot-1`
acknowledges `bc_1000` (the first stored one is marked), and `GET /api/broadcasts` leaves
the marked one stored second.  A stored broadcast with the id now lists `bot-1`, and the
next acknowledgment of `bc_1000` by `bot-1` still changes the log. -/
theorem acknowledgeDelivery_changes_log_although_listed :
    nonDecreasing reorderScenario ∧
    (∃ b ∈ (run ⟨none⟩ State.empty reorderScenario).broadcasts,
      b.id = "bc_1000" ∧ "bot-1" ∈ b.deliveredTo) ∧
    (acknowledgeDelivery (run ⟨none⟩ State.empty reorderScenario) "bot-1" "bc_1000").1 ≠
      run ⟨none⟩ State.empty reorderScenario ∧
    (acknowledgeDelivery (run ⟨none⟩ State.empty reorderScenario) "bot-1" "bc_1000").1.broadcasts
      ≠ (run ⟨none⟩ State.empty reorderScenario).broadcasts := by
  refine ⟨by decide, ?_, by decide, by decide⟩
  exact ⟨{ id := "bc_1000", message := "first", created := 1000, status := "active",
           deliveredTo := ["bot-1"] }, by decide, by decide, by decide⟩

theorem acknowledge_twice (s : State) (i bid : String) :
    (acknowledgeDelivery (acknowledgeDelivery s i bid).1 i bid).1 =
      (acknowledgeDelivery s i bid).1 := by
  rcases acknowledge_shape s i bid with ⟨-, h⟩ | ⟨_, _, _, -, -, -, -, h⟩ |
    ⟨l1, e, l2, -, hl1, he, -, h⟩
  · rw [h, h]
  · rw [h, h]
  · rw [h]
    rcases acknowledge_shape
        { s with broadcasts := l1 ++ { e with deliveredTo := e.deliveredTo ++ [i] } :: l2 }
        i bid with ⟨hnone, -⟩ | ⟨_, _, _, -, -, -, -, h2⟩ | ⟨l1', e2, l2', hl', hl1', he2, hnin, -⟩
    · exact absurd he
        (hnone { e with deliveredTo := e.deliveredTo ++ [i] } (by simp))
    · exact h2
    · exfalso
      have h1 := find?_id_first l1 l2 { e with deliveredTo := e.deliveredTo ++ [i] } bid hl1 he
      have h2 := find?_id_first l1' l2' e2 bid hl1' he2
      simp only at hl'
      rw [hl', h2] at h1
      cases h1
      exact hnin (by simp)

theorem eq_of_nodup_ids {l : List Broadcast} (h : (l.map (fun b => b.id)).Nodup)
    {a b : Broadcast} (ha : a ∈ l) (hb : b ∈ l) (hab : a.id = b.id) : a = b :=
  List.inj_on_of_nodup_map h ha hb hab

/-- C12 as stated fails when two stored broadcasts share an id.  Two broadcasts are created
within the millisecond 1000 and both get the id `bc_1000`; `bot-1` acknowledges `bc_1000`.
The second broadcast has that id, does not list `bot-1`, and `listPending` still returns it
for `bot-1`. -/
theorem acknowledgeDelivery_misses_same_id :
    ∃ b ∈ (run ⟨none⟩ State.empty
        (collisionCalls.map CreateCall.toOp ++
          [.acknowledgeDelivery "bot-1" "bc_1000"])).broadcasts,
      b.id = "bc_1000" ∧ b.deliveredTo.count "bot-1" ≠ 1 ∧
      b ∈ listPending (run ⟨none⟩ State.empty
        (collisionCalls.map CreateCall.toOp ++
          [.acknowledgeDelivery "bot-1" "bc_1000"])) "bot-1" :=
  ⟨{ id := "bc_1000", message := "second", created := 1000, status := "active",
     deliveredTo := [] }, by decide, by decide, by decide, by decide⟩

/-! ## Broadcast log: what a request does to stored broadcasts -/

theorem grown_refl (b : Broadcast) : Grown b b :=
  ⟨rfl, rfl, rfl, rfl, fun _ h => h⟩

/-- Every broadcast stored after a request was stored before it, or is a stored one with one
new acknowledgment, or is the broadcast an accepted creation has just made. -/
theorem step_broadcasts_backward (env : Env) (s : State) (op : Op) :
    ∀ b' ∈ (step env s op).broadcasts,
      b' ∈ s.broadcasts ∨
      (∃ b ∈ s.broadcasts, ∃ i, i ∉ b.deliveredTo ∧
        b' = { b with deliveredTo := b.deliveredTo ++ [i] }) ∨
      (op.isAcceptedCreate env ∧ b'.deliveredTo = [] ∧ b'.status = "active") := by
  intro b' hb'
  cases op with
  | register body ip now =>
    left; simpa [step, register_broadcasts] using hb'
  | getStats now stamp => exact Or.inl hb'
  | listInstances => exact Or.inl hb'
  | create body tId tCreated =>
    rcases create_cases env s body tId tCreated with hc | ⟨hacc, m, -, hc⟩
    · left; simpa [step, hc] using hb'
    · simp only [step, hc, sliceLast] at hb'
      rcases List.mem_append.mp (List.mem_of_mem_drop hb') with h | h
      · exact Or.inl h
      · right; right
        rw [List.mem_singleton] at h
        subst h
        exact ⟨hacc, rfl, rfl⟩
  | listPending i => exact Or.inl hb'
  | acknowledgeDelivery i bid =>
    rcases acknowledge_shape s i bid with ⟨-, hc⟩ | ⟨_, _, _, -, -, -, -, hc⟩ |
      ⟨l1, e, l2, hl, -, -, hnin, hc⟩
    · left; simpa [step, hc] using hb'
    · left; simpa [step, hc] using hb'
    · simp only [step, hc] at hb'
      rcases List.mem_append.mp hb' with h | h
      · left; rw [hl]; exact List.mem_append_left _ h
      · rcases List.mem_cons.mp h with h | h
        · right; left
          exact ⟨e, by rw [hl]; simp, i, hnin, h⟩
        · left; rw [hl]; exact List.mem_append_right _ (List.mem_cons_of_mem _ h)
  | listAll =>
    left
    simp only [step, listAll] at hb'
    exact (List.mem_insertionSort _).mp hb'

/-- Every broadcast stored before a request is stored after it, unchanged or with the one new
acknowledgment of that request, unless the request is an accepted creation that evicts it. -/
theorem step_broadcasts_forward (env : Env) (s : State) (op : Op) :
    ∀ b ∈ s.broadcasts,
      b ∈ (step env s op).broadcasts ∨
      (∃ i, op = .acknowledgeDelivery i b.id ∧ i ∉ b.deliveredTo ∧
        ({ b with deliveredTo := b.deliveredTo ++ [i] } : Broadcast) ∈
          (step env s op).broadcasts) ∨
      (op.isAcceptedCreate env ∧ b ∉ (step env s op).broadcasts) := by
  intro b hb
  cases op with
  | register body ip now =>
    left; simpa [step, register_broadcasts] using hb
  | getStats now stamp => exact Or.inl hb
  | listInstances => exact Or.inl hb
  | create body tId tCreated =>
    rcases create_cases env s body tId tCreated with hc | ⟨hacc, m, -, hc⟩
    · left; simpa [step, hc] using hb
    · by_cases hmem : b ∈ (step env s (.create body tId tCreated)).broadcasts
      · exact Or.inl hmem
      · exact Or.inr (Or.inr ⟨hacc, hmem⟩)
  | listPending i => exact Or.inl hb
  | acknowledgeDelivery i bid =>
    rcases acknowledge_shape s i bid with ⟨-, hc⟩ | ⟨_, _, _, -, -, -, -, hc⟩ |
      ⟨l1, e, l2, hl, -, he, hnin, hc⟩
    · left; simpa [step, hc] using hb
    · left; simpa [step, hc] using hb
    · simp only [step, hc]
      rw [hl] at hb
      rcases List.mem_append.mp hb with h | h
      · left; exact List.mem_append_left _ h
      · rcases List.mem_cons.mp h with h | h
        · right; left
          subst h
          exact ⟨i, by rw [he], hnin, by simp⟩
        · left; exact List.mem_append_right _ (List.mem_cons_of_mem _ h)
  | listAll =>
    left
    simp only [step, listAll]
    exact (List.mem_insertionSort _).mpr hb

/-! ## Broadcast log: pending broadcasts -/

theorem run_status_active (env : Env) (ops : List Op) :
    ∀ b ∈ (run env State.empty ops).broadcasts, b.status = "active" := by
  refine run_invariant env (fun s => ∀ b ∈ s.broadcasts, b.status = "active")
    (by simp [State.empty]) ?_ ops
  intro s op ih b' hb'
  rcases step_broadcasts_backward env s op b' hb' with h | ⟨b, hb, i, -, rfl⟩ | ⟨-, -, h⟩
  · exact ih b' h
  · exact ih b hb
  · exact h

/-- C14.  `listPending` returns the stored broadcasts that have status `"active"` and do not
list the instance, as a sublist of the stored array (each once, in storage order), and
leaves the state as it was.  In every reachable state every stored broadcast has status
`"active"`, so there the result is the stored broadcasts that do not list the instance.  A
broadcast pending for an instance is, after any request, still pending for it (as it was, or
with one more acknowledgment of another instance), unless the request is that instance's
acknowledgment of its id or an accepted creation that evicts it. -/
theorem listPending_exact (env : Env) (s : State) (i : String) :
    listPending s i =
      s.broadcasts.filter (fun b => decide (b.status = "active" ∧ i ∉ b.deliveredTo)) ∧
    (listPending s i).Sublist s.broadcasts ∧
    step env s (.listPending i) = s ∧
    (∀ ops : List Op, ∀ b ∈ (run env State.empty ops).broadcasts, b.status = "active") ∧
    (∀ ops : List Op, listPending (run env State.empty ops) i =
      (run env State.empty ops).broadcasts.filter (fun b => decide (i ∉ b.deliveredTo))) ∧
    (∀ (op : Op) (b : Broadcast), b ∈ listPending s i →
      b ∈ listPending (step env s op) i ∨
      (∃ j, j ≠ i ∧ ({ b with deliveredTo := b.deliveredTo ++ [j] } : Broadcast) ∈
        listPending (step env s op) i) ∨
      op = .acknowledgeDelivery i b.id ∨
      (op.isAcceptedCreate env ∧ b ∉ (step env s op).broadcasts)) := by
  refine ⟨?_, ?_, rfl, run_status_active env, ?_, ?_⟩
  · simp only [listPending]
    apply List.filter_congr
    intro b _
    by_cases h1 : b.status = "active" <;> simp [h1]
  · exact List.filter_sublist _
  · intro ops
    simp only [listPending]
    apply List.filter_congr
    intro b hb
    simp [run_status_active env ops b hb]
  · intro op b hb
    obtain ⟨hmem, hact, hnin⟩ := mem_listPending.mp hb
    rcases step_broadcasts_forward env s op b hmem with h | ⟨j, hop, -, h⟩ | h
    · exact Or.inl (mem_listPending.mpr ⟨h, hact, hnin⟩)
    · by_cases hj : j = i
      · subst hj
        exact Or.inr (Or.inr (Or.inl hop))
      · refine Or.inr (Or.inl ⟨j, hj, mem_listPending.mpr ⟨h, hact, ?_⟩⟩)
        simp only [List.mem_append, List.mem_singleton, not_or]
        exact ⟨hnin, fun h' => hj h'.symm⟩
    · exact Or.inr (Or.inr (Or.inr h))

/-! ## Broadcast log: acknowledgments only accumulate -/

theorem run_deliveredTo_nodup (env : Env) (ops : List Op) :
    ∀ b ∈ (run env State.empty ops).broadcasts, b.deliveredTo.Nodup := by
  refine run_invariant env (fun s => ∀ b ∈ s.broadcasts, b.deliveredTo.Nodup)
    (by simp [State.empty]) ?_ ops
  intro s op ih b' hb'
  rcases step_broadcasts_backward env s op b' hb' with h | ⟨b, hb, i, hi, rfl⟩ | ⟨-, h, -⟩
  · exact ih b' h
  · simp only
    rw [List.nodup_append]
    refine ⟨ih b hb, by simp, ?_⟩
    intro a ha ha'
    rw [List.mem_singleton] at ha'
    exact hi (ha' ▸ ha)
  · rw [h]; exact List.nodup_nil

/-- C20.  In every reachable state no `deliveredTo` lists an instance twice.  Across any
request from any state, every stored broadcast either is evicted by an accepted creation or
is still stored with the same `id`, `message`, `created` and `status` and a `deliveredTo`
that still holds everything it held; and every broadcast stored afterwards is such a
continuation of one stored before, or was just created with an empty `deliveredTo`. -/
theorem deliveredTo_nodup_grows (env : Env) (ops : List Op) (s : State) (op : Op) :
    (∀ b ∈ (run env State.empty ops).broadcasts, b.deliveredTo.Nodup) ∧
    (∀ b ∈ s.broadcasts,
      (∃ b' ∈ (step env s op).broadcasts, Grown b b') ∨
      (op.isAcceptedCreate env ∧ b ∉ (step env s op).broadcasts)) ∧
    (∀ b' ∈ (step env s op).broadcasts,
      (∃ b ∈ s.broadcasts, Grown b b') ∨
      (op.isAcceptedCreate env ∧ b'.deliveredTo = [])) := by
  refine ⟨run_deliveredTo_nodup env ops, ?_, ?_⟩
  · intro b hb
    rcases step_broadcasts_forward env s op b hb with h | ⟨j, -, -, h⟩ | h
    · exact Or.inl ⟨b, h, grown_refl b⟩
    · exact Or.inl ⟨_, h, rfl, rfl, rfl, rfl, fun x hx => by simp [hx]⟩
    · exact Or.inr h
  · intro b' hb'
    rcases step_broadcasts_backward env s op b' hb' with h | ⟨b, hb, i, -, rfl⟩ | ⟨h1, h2, -⟩
    · exact Or.inl ⟨b', h, grown_refl b'⟩
    · exact Or.inl ⟨b, hb, rfl, rfl, rfl, rfl, fun x hx => by simp [hx]⟩
    · exact Or.inr ⟨h1, h2⟩

/-! ## Broadcast ids -/

theorem digitsVal_append_singleton (l : List Char) (c : Char) :
    digitsVal (l ++ [c]) = 10 * digitsVal l + (c.toNat - 48) := by
  simp [digitsVal, List.foldl_append]

theorem digitChar_val (k : Nat) (hk : k < 10) : (Nat.digitChar k).toNat - 48 = k := by
  interval_cases k <;> rfl

theorem toDigitsCore_eq (n : Nat) : ∀ (fuel : Nat) (ds : List Char), n < fuel →
    Nat.toDigitsCore 10 fuel n ds = Nat.toDigitsCore 10 (n + 1) n [] ++ ds := by
  induction n using Nat.strong_induction_on with
  | _ n ih =>
    intro fuel ds hf
    obtain ⟨f, rfl⟩ : ∃ f, fuel = f + 1 := ⟨fuel - 1, by omega⟩
    by_cases h0 : n / 10 = 0
    · simp [Nat.toDigitsCore, h0]
    · have hlt : n / 10 < n := Nat.div_lt_self (by omega) (by omega)
      simp only [Nat.toDigitsCore, h0, if_false]
      rw [ih (n / 10) hlt f _ (by omega), ih (n / 10) hlt n _ hlt]
      simp

theorem toDigits_step (n : Nat) (h0 : n / 10 ≠ 0) :
    Nat.toDigits 10 n = Nat.toDigits 10 (n / 10) ++ [Nat.digitChar (n % 10)] := by
  have hlt : n / 10 < n := Nat.div_lt_self (by omega) (by omega)
  simp only [Nat.toDigits]
  conv_lhs => simp only [Nat.toDigitsCore, h0, if_false]
  rw [toDigitsCore_eq (n / 10) n _ hlt]

theorem toDigits_small (n : Nat) (h0 : n / 10 = 0) :
    Nat.toDigits 10 n = [Nat.digitChar (n % 10)] := by
  simp [Nat.toDigits, Nat.toDigitsCore, h0]

theorem digitsVal_toDigits (n : Nat) : digitsVal (Nat.toDigits 10 n) = n := by
  induction n using Nat.strong_induction_on with
  | _ n ih =>
    by_cases h0 : n / 10 = 0
    · rw [toDigits_small n h0]
      simp only [digitsVal, List.foldl_cons, List.foldl_nil]
      rw [digitChar_val _ (Nat.mod_lt _ (by omega))]
      omega
    · have hlt : n / 10 < n := Nat.div_lt_self (by omega) (by omega)
      rw [toDigits_step n h0, digitsVal_append_singleton, ih _ hlt,
        digitChar_val _ (Nat.mod_lt _ (by omega))]
      omega

theorem toString_int_data (t : Int) :
    (toString t).data = match t with
      | Int.ofNat n => Nat.toDigits 10 n
      | Int.negSucc n => '-' :: Nat.toDigits 10 (n + 1) := by
  cases t <;> rfl

theorem digitsVal_minus (l : List Char) : digitsVal ('-' :: l) = digitsVal l := by
  simp [digitsVal]

theorem toString_int_injective (a b : Int) (h : toString a = toString b) : a = b := by
  have hd : (toString a).data = (toString b).data := by rw [h]
  rw [toString_int_data, toString_int_data] at hd
  cases a with
  | ofNat n =>
    cases b with
    | ofNat m =>
      have := congrArg digitsVal hd
      simp only [digitsVal_toDigits] at this
      rw [this]
    | negSucc m =>
      exfalso
      have h1 := congrArg digitsVal hd
      simp only [digitsVal_toDigits, digitsVal_minus] at h1
      have h2 := congrArg List.length hd
      simp only [h1, List.length_cons] at h2
      omega
  | negSucc n =>
    cases b with
    | ofNat m =>
      exfalso
      have h1 := congrArg digitsVal hd
      simp only [digitsVal_toDigits, digitsVal_minus] at h1
      have h2 := congrArg List.length hd
      simp only [← h1, List.length_cons] at h2
      omega
    | negSucc m =>
      have hd' := List.tail_eq_of_cons_eq hd
      have := congrArg digitsVal hd'
      simp only [digitsVal_toDigits] at this
      have : n = m := by omega
      rw [this]

theorem bc_id_injective (a b : Int) (h : "bc_" ++ toString a = "bc_" ++ toString b) : a = b := by
  apply toString_int_injective
  have hd := congrArg String.data h
  simp only [String.data_append] at hd
  exact String.ext (List.append_cancel_left hd)

theorem broadcastOf_id_injective (c1 c2 : CreateCall)
    (h : (broadcastOf c1).id = (broadcastOf c2).id) : c1.tId = c2.tId :=
  bc_id_injective _ _ h

theorem acknowledge_others_kept (s : State) (i bid : String) :
    ∀ b' ∈ (acknowledgeDelivery s i bid).1.broadcasts, b'.id ≠ bid → b' ∈ s.broadcasts := by
  intro b' hb' hne
  rcases acknowledge_shape s i bid with ⟨-, h⟩ | ⟨_, _, _, -, -, -, -, h⟩ |
    ⟨l1, e, l2, hl, -, he, -, h⟩
  · rwa [h] at hb'
  · rwa [h] at hb'
  · rw [h] at hb'
    simp only at hb'
    rw [hl]
    rcases List.mem_append.mp hb' with h1 | h1
    · exact List.mem_append_left _ h1
    · rcases List.mem_cons.mp h1 with h2 | h2
      · exact absurd (by rw [h2]; exact he) hne
      · exact List.mem_append_right _ (List.mem_cons_of_mem _ h2)

theorem acknowledge_marks_every (s : State) (i bid : String)
    (hnd : (s.broadcasts.map (fun b => b.id)).Nodup) :
    ∀ b' ∈ (acknowledgeDelivery s i bid).1.broadcasts, b'.id = bid → i ∈ b'.deliveredTo := by
  intro b hb hbid
  rcases acknowledge_shape s i bid with ⟨hnone, h⟩ | ⟨l1, e, l2, hl, hl1, he, hin, h⟩ |
    ⟨l1, e, l2, hl, hl1, he, hnin, h⟩
  · rw [h] at hb
    exact absurd hbid (hnone b hb)
  · rw [h] at hb
    have hemem : e ∈ s.broadcasts := by rw [hl]; simp
    rw [eq_of_nodup_ids hnd hb hemem (hbid.trans he.symm)]
    exact hin
  · rw [h] at hb
    simp only at hb
    rw [hl] at hnd
    rcases List.mem_append.mp hb with h1 | h1
    · exact absurd hbid (hl1 b h1)
    · rcases List.mem_cons.mp h1 with h2 | h2
      · rw [h2]; simp
      · exfalso
        simp only [List.map_append, List.map_cons, List.nodup_append, List.nodup_cons,
          List.mem_map, not_exists, not_and] at hnd
        exact hnd.2.1.1 b h2 (hbid.trans he.symm)

/-- C18, as amended.  Starting from the empty log, after any sequence of accepted creation
calls whose clock reads for the id are pairwise distinct, no two stored broadcasts have the
same id; an acknowledgment for an id then leaves every broadcast with another id as it was,
marks every stored broadcast with that id, and at most one stored broadcast has that id. -/
theorem createAll_ids_nodup (env : Env) (s : State) (calls : List CreateCall)
    (hs : s.broadcasts = []) (hacc : ∀ c ∈ calls, c.accepted env)
    (hdistinct : (calls.map (fun c => c.tId)).Nodup) :
    ((createAll env s calls).broadcasts.map (fun b => b.id)).Nodup ∧
    (∀ i bid : String,
      (∀ b' ∈ (acknowledgeDelivery (createAll env s calls) i bid).1.broadcasts,
        b'.id ≠ bid → b' ∈ (createAll env s calls).broadcasts) ∧
      (∀ b' ∈ (acknowledgeDelivery (createAll env s calls) i bid).1.broadcasts,
        b'.id = bid → i ∈ b'.deliveredTo) ∧
      (createAll env s calls).broadcasts.countP (fun b => b.id == bid) ≤ 1) := by
  have hlog : (createAll env s calls).broadcasts =
      (calls.map broadcastOf).drop (calls.length - 50) := by
    rw [createAll_broadcasts env s calls (by simp [hs]) hacc, hs]
    simp [sliceLast]
  have hall : ((calls.map broadcastOf).map (fun b => b.id)).Nodup := by
    rw [List.map_map]
    have hinj : ∀ c1 ∈ calls, ∀ c2 ∈ calls,
        ((fun b : Broadcast => b.id) ∘ broadcastOf) c1 =
          ((fun b : Broadcast => b.id) ∘ broadcastOf) c2 → c1 = c2 := by
      intro c1 h1 c2 h2 h
      exact List.inj_on_of_nodup_map hdistinct h1 h2 (broadcastOf_id_injective c1 c2 h)
    exact List.Nodup.map_on hinj (List.Nodup.of_map _ hdistinct)
  have hnd : ((createAll env s calls).broadcasts.map (fun b => b.id)).Nodup := by
    rw [hlog]
    exact hall.sublist ((List.drop_sublist _ _).map _)
  refine ⟨hnd, ?_⟩
  intro i bid
  refine ⟨acknowledge_others_kept _ i bid, acknowledge_marks_every _ i bid hnd, ?_⟩
  have hcount := List.nodup_iff_count_le_one.mp hnd bid
  rw [List.count, List.countP_map] at hcount
  simpa [Function.comp] using hcount

/-- An instance of `createAll_ids_nodup`: 51 creations at the distinct times 1000 to 1050. -/
theorem createAll_ids_nodup_witness :
    ((createAll ⟨none⟩ State.empty ((List.range 51).map sampleCreate)).broadcasts.map
      (fun b => b.id)).Nodup :=
  (createAll_ids_nodup ⟨none⟩ State.empty ((List.range 51).map sampleCreate) rfl
    (by
      intro c hc
      obtain ⟨i, -, rfl⟩ := List.mem_map.mp hc
      have hnb : ¬ isBlank (some "hello") := by decide
      exact ⟨rfl, hnb⟩)
    (by decide)).1

/-- C18 as stated fails within one millisecond: two accepted creation calls that both read
the clock value 1000 (so the times never decrease) store two broadcasts with the same id
`bc_1000`. -/
theorem create_same_millisecond_same_id :
    nonDecreasing (collisionCalls.map CreateCall.toOp) ∧
    (∀ c ∈ collisionCalls, c.accepted ⟨none⟩) ∧
    (createAll ⟨none⟩ State.empty collisionCalls).broadcasts.map (fun b => b.id) =
      ["bc_1000", "bc_1000"] ∧
    ¬ ((createAll ⟨none⟩ State.empty collisionCalls).broadcasts.map (fun b => b.id)).Nodup := by
  refine ⟨by decide, ?_, by decide, by decide⟩
  intro c hc
  simp only [collisionCalls, List.mem_cons, List.mem_singleton, List.not_mem_nil,
    or_false] at hc
  rcases hc with rfl | rfl
  · exact ⟨rfl, by decide⟩
  · exact ⟨rfl, by decide⟩

/-! ## Broadcast log: an acknowledgment is recorded once -/

theorem acknowledge_selected (s : State) (i bid : String) (e0 : Broadcast)
    (h0 : s.broadcasts.find? (fun bc => bc.id == bid) = some e0) :
    ∃ e, (acknowledgeDelivery s i bid).1.broadcasts.find? (fun bc => bc.id == bid) = some e ∧
      Grown e0 e ∧ i ∈ e.deliveredTo ∧
      e.deliveredTo.count i = max 1 (e0.deliveredTo.count i) ∧
      e ∉ listPending (acknowledgeDelivery s i bid).1 i := by
  rcases acknowledge_shape s i bid with ⟨hnone, -⟩ | ⟨l1, e, l2, hl, hl1, he, hin, h⟩ |
    ⟨l1, e, l2, hl, hl1, he, hnin, h⟩
  · have hmem := List.mem_of_find?_eq_some h0
    have hid : e0.id = bid := by simpa using List.find?_some h0
    exact absurd hid (hnone e0 hmem)
  · rw [hl, find?_id_first l1 l2 e bid hl1 he] at h0
    have hee : e = e0 := Option.some.inj h0
    rw [← hee]
    refine ⟨e, by rw [h, hl]; exact find?_id_first l1 l2 e bid hl1 he, grown_refl e, hin,
      ?_, ?_⟩
    · have : 1 ≤ e.deliveredTo.count i := List.count_pos_iff.mpr hin
      omega
    · intro hp
      exact (mem_listPending.mp hp).2.2 hin
  · rw [hl, find?_id_first l1 l2 e bid hl1 he] at h0
    have hee : e = e0 := Option.some.inj h0
    rw [← hee]
    refine ⟨{ e with deliveredTo := e.deliveredTo ++ [i] }, ?_,
      ⟨rfl, rfl, rfl, rfl, fun x hx => by simp [hx]⟩, by simp, ?_, ?_⟩
    · rw [h]; exact find?_id_first l1 l2 _ bid hl1 he
    · simp only [List.count_append, List.count_singleton]
      simp [List.count_eq_zero.mpr hnin]
    · intro hp
      exact (mem_listPending.mp hp).2.2 (by simp)

theorem find?_id_isSome_of_mem (l : List Broadcast) (bid : String)
    (h : ∃ b ∈ l, b.id = bid) : ∃ e0, l.find? (fun bc => bc.id == bid) = some e0 := by
  obtain ⟨b, hb, hbid⟩ := h
  cases hf : l.find? (fun bc => bc.id == bid) with
  | some e0 => exact ⟨e0, rfl⟩
  | none =>
    have := List.find?_eq_none.mp hf b hb
    simp [hbid] at this

/-- C12, as amended.  Acknowledging twice gives the state acknowledging once gives.  In every
state, when some stored broadcast has the id, the first stored one with the id (the one
`find` selects) keeps its `id`, `message`, `created` and `status`, lists the instance
afterwards, as many times as before and at least once, hence exactly once when its
`deliveredTo` listed no entry twice, and is not returned by `listPending` for the instance.
In every reachable state it lists the instance exactly once afterwards.  When the stored ids
are pairwise distinct and no `deliveredTo` lists an entry twice, every stored broadcast with
the id lists the instance exactly once afterwards and is not returned by `listPending`. -/
theorem acknowledgeDelivery_idempotent (env : Env) (ops : List Op) (s : State)
    (i bid : String) :
    (acknowledgeDelivery (acknowledgeDelivery s i bid).1 i bid).1 =
      (acknowledgeDelivery s i bid).1 ∧
    ((∃ b ∈ s.broadcasts, b.id = bid) →
      ∃ e0 e, s.broadcasts.find? (fun bc => bc.id == bid) = some e0 ∧
        (acknowledgeDelivery s i bid).1.broadcasts.find? (fun bc => bc.id == bid) = some e ∧
        Grown e0 e ∧ i ∈ e.deliveredTo ∧
        e.deliveredTo.count i = max 1 (e0.deliveredTo.count i) ∧
        (e0.deliveredTo.Nodup → e.deliveredTo.count i = 1) ∧
        e ∉ listPending (acknowledgeDelivery s i bid).1 i) ∧
    ((∃ b ∈ (run env State.empty ops).broadcasts, b.id = bid) →
      ∃ e, (acknowledgeDelivery (run env State.empty ops) i bid).1.broadcasts.find?
          (fun bc => bc.id == bid) = some e ∧
        e.deliveredTo.count i = 1 ∧
        e ∉ listPending (acknowledgeDelivery (run env State.empty ops) i bid).1 i) ∧
    ((s.broadcasts.map (fun b => b.id)).Nodup → (∀ b ∈ s.broadcasts, b.deliveredTo.Nodup) →
      ∀ b ∈ (acknowledgeDelivery s i bid).1.broadcasts, b.id = bid →
        b.deliveredTo.count i = 1 ∧ b ∉ listPending (acknowledgeDelivery s i bid).1 i) := by
  have hsel : ∀ (st : State) (e0 : Broadcast),
      st.broadcasts.find? (fun bc => bc.id == bid) = some e0 →
      ∃ e, (acknowledgeDelivery st i bid).1.broadcasts.find? (fun bc => bc.id == bid) = some e ∧
        Grown e0 e ∧ i ∈ e.deliveredTo ∧
        e.deliveredTo.count i = max 1 (e0.deliveredTo.count i) ∧
        (e0.deliveredTo.Nodup → e.deliveredTo.count i = 1) ∧
        e ∉ listPending (acknowledgeDelivery st i bid).1 i := by
    intro st e0 h0
    obtain ⟨e, hf, hg, hin, hc, hp⟩ := acknowledge_selected st i bid e0 h0
    refine ⟨e, hf, hg, hin, hc, ?_, hp⟩
    intro hnd
    have := List.nodup_iff_count_le_one.mp hnd i
    omega
  refine ⟨acknowledge_twice s i bid, ?_, ?_, ?_⟩
  · intro hex
    obtain ⟨e0, h0⟩ := find?_id_isSome_of_mem s.broadcasts bid hex
    obtain ⟨e, hf, hg, hin, hc, hone, hp⟩ := hsel s e0 h0
    exact ⟨e0, e, h0, hf, hg, hin, hc, hone, hp⟩
  · intro hex
    obtain ⟨e0, h0⟩ := find?_id_isSome_of_mem _ bid hex
    obtain ⟨e, hf, -, -, -, hone, hp⟩ := hsel _ e0 h0
    exact ⟨e, hf, hone (run_deliveredTo_nodup env ops e0 (List.mem_of_find?_eq_some h0)), hp⟩
  · intro hnd hdel b hb hbid
    have hin := acknowledge_marks_every s i bid hnd b hb hbid
    have hndb : b.deliveredTo.Nodup := by
      rcases step_broadcasts_backward env s (.acknowledgeDelivery i bid) b hb with
        h | ⟨b0, hb0, j, hj, rfl⟩ | ⟨h, -, -⟩
      · exact hdel b h
      · simp only
        rw [List.nodup_append]
        refine ⟨hdel b0 hb0, by simp, ?_⟩
        intro a ha ha'
        rw [List.mem_singleton] at ha'
        exact hj (ha' ▸ ha)
      · exact absurd h (by simp [Op.isAcceptedCreate])
    refine ⟨List.count_eq_one_of_mem hndb hin, ?_⟩
    intro hp
    exact (mem_listPending.mp hp).2.2 hin

/-- An instance of `acknowledgeDelivery_idempotent`: after the two creations that share the id
`bc_1000`, the acknowledgment by `bot-1` leaves the first stored broadcast with that id
listing `bot-1` exactly once and not pending for it. -/
theorem acknowledgeDelivery_idempotent_witness :
    ∃ e, (acknowledgeDelivery (run ⟨none⟩ State.empty (collisionCalls.map CreateCall.toOp))
          "bot-1" "bc_1000").1.broadcasts.find? (fun bc => bc.id == "bc_1000") = some e ∧
      e.deliveredTo.count "bot-1" = 1 ∧
      e ∉ listPending (acknowledgeDelivery
          (run ⟨none⟩ State.empty (collisionCalls.map CreateCall.toOp))
          "bot-1" "bc_1000").1 "bot-1" :=
  (acknowledgeDelivery_idempotent ⟨none⟩ (collisionCalls.map CreateCall.toOp) State.empty
    "bot-1" "bc_1000").2.2.1
    ⟨{ id := "bc_1000", message := "first", created := 1000, status := "active",
       deliveredTo := [] }, by decide, rfl⟩

end RiamTracker
